import Mathlib

/-!
# GitAudit audit engine — shallow embedding

A shallow embedding of the GitAudit CLI audit engine
(`cli/src/audit-engine.js`, `cli/src/languages.js`,
`cli/src/local-scanner.js`, `bin/gitaudit.js`) together with proofs about
the claims of the specification.

JavaScript strings are modelled as `String`/`List Char`, JS numbers that
hold small integers as `Nat`/`Int`, and JS regular expressions by an
explicit abstract syntax (`Re`) with a fuel-indexed backtracking matcher
that follows ECMAScript semantics (leftmost match, greedy/lazy
quantifiers, alternation preferring the left branch, character-class
canonicalisation for the `i` flag, `m`-flag anchors, negative
look-around).  Thrown JS exceptions are modelled by an explicit
error component.
-/

namespace GitAudit

/-! ## Characters and JS string helpers -/

/-- The `{` character (written by code point). -/
def lbrace : Char := Char.ofNat 123

/-- The `}` character (written by code point). -/
def rbrace : Char := Char.ofNat 125

/-- The `'` character (written by code point). -/
def squote : Char := Char.ofNat 39

/-- The `"` character (written by code point). -/
def dquote : Char := Char.ofNat 34

/-- The backtick character (written by code point). -/
def btick : Char := Char.ofNat 96

/-- The backslash character (written by code point). -/
def bslash : Char := Char.ofNat 92

/-- ECMAScript WhiteSpace or LineTerminator, as used by `trim`, `\s`. -/
def jsIsSpace (c : Char) : Bool :=
  c = ' ' || c.val = 9 || c.val = 10 || c.val = 11 || c.val = 12 || c.val = 13 ||
  c.val = 0xA0 || c.val = 0x1680 || (0x2000 ≤ c.val && c.val ≤ 0x200A) ||
  c.val = 0x2028 || c.val = 0x2029 || c.val = 0x202F || c.val = 0x205F ||
  c.val = 0x3000 || c.val = 0xFEFF

/-- ECMAScript LineTerminator (what `.` does not match). -/
def jsIsLineTerm (c : Char) : Bool :=
  c.val = 10 || c.val = 13 || c.val = 0x2028 || c.val = 0x2029

/-- `\d`. -/
def jsIsDigit (c : Char) : Bool := '0' ≤ c && c ≤ '9'

/-- `\w`. -/
def jsIsWord (c : Char) : Bool :=
  ('a' ≤ c && c ≤ 'z') || ('A' ≤ c && c ≤ 'Z') || jsIsDigit c || c = '_'

/-- ASCII upper-casing, the canonicalisation used by the regex `i` flag. -/
def asciiUpper (c : Char) : Char :=
  if 'a' ≤ c ∧ c ≤ 'z' then Char.ofNat (c.toNat - 32) else c

/-- ASCII lower-casing. -/
def asciiLower (c : Char) : Char :=
  if 'A' ≤ c ∧ c ≤ 'Z' then Char.ofNat (c.toNat + 32) else c

/-- JS `String.prototype.trim` (on a char list). -/
def trimChars (cs : List Char) : List Char :=
  ((cs.dropWhile jsIsSpace).reverse.dropWhile jsIsSpace).reverse

/-- JS `s.trim()`. -/
def jsTrim (s : String) : String := (trimChars s.data).asString

/-- Is `pre` a prefix of `cs`? -/
def listIsPrefixOf : List Char → List Char → Bool
  | [], _ => true
  | _ :: _, [] => false
  | p :: ps, c :: cs => p = c && listIsPrefixOf ps cs

/-- JS `s.startsWith(pre)`. -/
def jsStartsWith (s pre : String) : Bool := listIsPrefixOf pre.data s.data

/-- Does `cs` contain `needle` as a contiguous sublist? -/
def listContainsSub (needle : List Char) : List Char → Bool
  | [] => listIsPrefixOf needle []
  | c :: cs => listIsPrefixOf needle (c :: cs) || listContainsSub needle cs

/-- JS `s.includes(sub)`. -/
def jsIncludes (s sub : String) : Bool := listContainsSub sub.data s.data

/-- JS `s.endsWith(suf)`. -/
def jsEndsWith (s suf : String) : Bool :=
  listIsPrefixOf suf.data.reverse s.data.reverse

/-- JS `s.substring(0, n)` (start fixed at 0). -/
def jsTake (s : String) (n : Nat) : String := (s.data.take n).asString

/-- JS `s.toUpperCase()` for ASCII text. -/
def jsToUpper (s : String) : String := (s.data.map asciiUpper).asString

/-- JS `s.toLowerCase()` for ASCII text. -/
def jsToLower (s : String) : String := (s.data.map asciiLower).asString

/-- JS `s.split(sep)` for a one-character separator. -/
def splitOnChar (sep : Char) (s : String) : List String :=
  (s.data.splitOn sep).map List.asString

/-- Scanner for `splitOnStr`: emit the piece before each occurrence of
the (nonempty) separator. -/
def splitOnStrAux (sep : List Char) : Nat → List Char → List Char → List String
  | 0, acc, rest => [(acc.reverse ++ rest).asString]
  | _ + 1, acc, [] => [acc.reverse.asString]
  | f + 1, acc, c :: cs =>
    if listIsPrefixOf sep (c :: cs) then
      acc.reverse.asString :: splitOnStrAux sep f [] ((c :: cs).drop sep.length)
    else splitOnStrAux sep f (c :: acc) cs

/-- JS `s.split(sep)` for a nonempty string separator (e.g. `'::'`). -/
def splitOnStr (sep : String) (s : String) : List String :=
  splitOnStrAux sep.data (s.length + 1) [] s.data

/-- Count occurrences of a single character (models `(s.match(/c/g) || []).length`
for a single-character pattern). -/
def countChar (c : Char) (s : String) : Nat := s.data.count c

/-- JS `parseInt(digits, 10)` on a nonempty digit string. -/
def parseDigits (s : String) : Nat :=
  s.data.foldl (fun n c => n * 10 + (c.toNat - 48)) 0

/-- Group decimal digits in threes with commas (fuel-recursive helper). -/
def groupDigits : Nat → List Char → List Char
  | 0, ds => ds
  | f + 1, ds =>
    if ds.length ≤ 3 then ds
    else groupDigits f (ds.take (ds.length - 3)) ++
      (',' :: ds.drop (ds.length - 3))

/-- JS `Number.prototype.toLocaleString()` in an en-US locale:
decimal digits grouped in threes by commas. -/
def toLocaleString (n : Nat) : String :=
  let ds := Nat.toDigits 10 n
  (groupDigits (ds.length + 1) ds).asString

end GitAudit

namespace GitAudit

/-! ## Regular expressions — ECMAScript abstract syntax -/

/-- A `\d`-style builtin character class. -/
inductive CCls
  | digit | word | space
  deriving DecidableEq

/-- One item of a bracketed character class. -/
inductive ClsItem
  | ch (c : Char)
  | range (lo hi : Char)
  | builtin (c : CCls) (neg : Bool)
  deriving DecidableEq

/-- ECMAScript regular expression syntax (the fragment the engine uses). -/
inductive Re
  | eps
  | ch (c : Char)
  | dot
  | cls (neg : Bool) (items : List ClsItem)
  | seq (a b : Re)
  | alt (a b : Re)
  | rep (a : Re) (lo : Nat) (hi : Option Nat) (lazy? : Bool)
  | grp (idx : Nat) (a : Re)
  | look (behind neg : Bool) (a : Re)
  | wordB (neg : Bool)
  | bol
  | eol
  deriving DecidableEq

/-- Regex flags: `i` (ignore case) and `m` (multiline). -/
structure ReFlags where
  icase : Bool := false
  mline : Bool := false
  deriving DecidableEq

/-- Does a builtin class accept `c`? -/
def cclsAccepts : CCls → Char → Bool
  | .digit, c => jsIsDigit c
  | .word, c => jsIsWord c
  | .space, c => jsIsSpace c

/-- Literal (canonicalisation-free) membership in a class item. -/
def itemAccepts : ClsItem → Char → Bool
  | .ch c0, c => c0 = c
  | .range lo hi, c => lo ≤ c && c ≤ hi
  | .builtin b neg, c => (cclsAccepts b c) != neg

/-- Membership of `c` in the class `items` under the `i` flag: ECMAScript
canonicalises, which for ASCII means testing `c` and its case-sibling. -/
def clsAccepts (fl : ReFlags) (neg : Bool) (items : List ClsItem) (c : Char) : Bool :=
  let hit :=
    if fl.icase then
      items.any fun it =>
        itemAccepts it c || itemAccepts it (asciiUpper c) || itemAccepts it (asciiLower c)
    else items.any (itemAccepts · c)
  hit != neg

/-- Literal-character comparison under the `i` flag. -/
def chAccepts (fl : ReFlags) (lit c : Char) : Bool :=
  if fl.icase then asciiUpper lit = asciiUpper c else lit = c

/-- Matcher state: a zipper over the input (`rb` is the reversed prefix),
the absolute position, and the capture slots. -/
structure MSt where
  rb : List Char
  af : List Char
  pos : Nat
  caps : List (Option (Nat × Nat))
  deriving DecidableEq

/-- Set capture slot `i` (1-based group index stored at list index `i-1`). -/
def setCap (caps : List (Option (Nat × Nat))) (i : Nat) (v : Nat × Nat) :
    List (Option (Nat × Nat)) :=
  caps.set (i - 1) (some v)

/-- Is there a word boundary at the current position? -/
def atWordBoundary (st : MSt) : Bool :=
  let before := match st.rb with | [] => false | c :: _ => jsIsWord c
  let after := match st.af with | [] => false | c :: _ => jsIsWord c
  before != after

/-- `^` test (start of input, or after a line terminator with `m`). -/
def atBol (fl : ReFlags) (st : MSt) : Bool :=
  match st.rb with
  | [] => true
  | c :: _ => fl.mline && jsIsLineTerm c

/-- `$` test (end of input, or before a line terminator with `m`). -/
def atEol (fl : ReFlags) (st : MSt) : Bool :=
  match st.af with
  | [] => true
  | c :: _ => fl.mline && jsIsLineTerm c

/-- Step the zipper forward by one character. -/
def stepSt (st : MSt) : MSt :=
  match st.af with
  | [] => st
  | c :: rest => { st with rb := c :: st.rb, af := rest, pos := st.pos + 1 }

/-- The backtracking matcher, in continuation-passing style with fuel
(the fuel bounds only the nesting depth of the search, which is linear in
the pattern size plus the consumed input; siblings of the search tree
share fuel).  Matches ECMAScript semantics: `alt` prefers the left
branch, greedy quantifiers take the longest repetition first, lazy ones
the shortest, and a non-mandatory quantifier iteration that consumes
nothing fails (the ECMAScript empty-loop rule). -/
def mrun (fl : ReFlags) : Nat → Re → MSt → (MSt → Option MSt) → Option MSt
  | 0, _, _, _ => none
  | _ + 1, .eps, st, k => k st
  | _ + 1, .ch c, st, k =>
    match st.af with
    | [] => none
    | a :: rest =>
      if chAccepts fl c a then
        k { st with rb := a :: st.rb, af := rest, pos := st.pos + 1 }
      else none
  | _ + 1, .dot, st, k =>
    match st.af with
    | [] => none
    | a :: rest =>
      if jsIsLineTerm a then none
      else k { st with rb := a :: st.rb, af := rest, pos := st.pos + 1 }
  | _ + 1, .cls neg items, st, k =>
    match st.af with
    | [] => none
    | a :: rest =>
      if clsAccepts fl neg items a then
        k { st with rb := a :: st.rb, af := rest, pos := st.pos + 1 }
      else none
  | fuel + 1, .seq a b, st, k =>
    mrun fl fuel a st fun st' => mrun fl fuel b st' k
  | fuel + 1, .alt a b, st, k =>
    (mrun fl fuel a st k).orElse fun _ => mrun fl fuel b st k
  | fuel + 1, .rep a lo hi lz, st, k =>
    if lo > 0 then
      mrun fl fuel a st fun st' =>
        mrun fl fuel (.rep a (lo - 1) (hi.map (· - 1)) lz) st' k
    else
      match hi with
      | some 0 => k st
      | _ =>
        let more := fun (_ : Unit) =>
          mrun fl fuel a st fun st' =>
            if st'.pos = st.pos then none
            else mrun fl fuel (.rep a 0 (hi.map (· - 1)) lz) st' k
        if lz then (k st).orElse more else (more ()).orElse fun _ => k st
  | fuel + 1, .grp i a, st, k =>
    mrun fl fuel a st fun st' => k { st' with caps := setCap st'.caps i (st.pos, st'.pos) }
  | fuel + 1, .look false neg a, st, k =>
    match mrun fl fuel a st some with
    | some st' => if neg then none else k { st with caps := st'.caps }
    | none => if neg then k st else none
  | fuel + 1, .look true neg a, st, k =>
    -- look-behind: try ever longer suffixes of the text before the
    -- current position; the body must end exactly at it
    let trials := (List.range (st.rb.length + 1)).filterMap fun tk =>
      mrun fl fuel a
        { rb := st.rb.drop tk, af := (st.rb.take tk).reverse ++ st.af,
          pos := st.pos - tk, caps := st.caps }
        fun st' => if st'.pos = st.pos then some st' else none
    match trials.head? with
    | some st' => if neg then none else k { st with caps := st'.caps }
    | none => if neg then k st else none
  | _ + 1, .wordB neg, st, k =>
    if atWordBoundary st != neg then k st else none
  | _ + 1, .bol, st, k => if atBol fl st then k st else none
  | _ + 1, .eol, st, k => if atEol fl st then k st else none

end GitAudit

namespace GitAudit

/-! ## Regex execution: search, `exec` loops, `match`, `split`, `test` -/

/-- The result of one successful regex application. -/
structure MatchRes where
  start : Nat
  stop : Nat
  caps : List (Option (Nat × Nat))
  deriving DecidableEq

/-- Fuel ample for `mrun`'s search depth on a given input. -/
def fuelFor (cs : List Char) (re : Re) : Nat :=
  let rec sz : Re → Nat
    | .seq a b => sz a + sz b + 1
    | .alt a b => sz a + sz b + 1
    | .rep a _ _ _ => sz a + 1
    | .grp _ a => sz a + 1
    | .look _ _ a => sz a + 1
    | _ => 1
  8 * (cs.length + sz re + 4) * (sz re + 2)

/-- Number of capturing groups mentioned in a pattern
(the largest group index that occurs). -/
def capCount : Re → Nat
  | .seq a b => max (capCount a) (capCount b)
  | .alt a b => max (capCount a) (capCount b)
  | .rep a _ _ _ => capCount a
  | .grp i a => max i (capCount a)
  | .look _ _ a => capCount a
  | _ => 0

/-- Try to match `re` anchored at the state `st`. -/
def tryHere (fl : ReFlags) (fuel : Nat) (re : Re) (st : MSt) : Option MSt :=
  mrun fl fuel re st some

/-- Find the leftmost match at or after the position of `st`
(ECMAScript search order: earliest starting position wins).
Returns the match and the matcher's final state. -/
def searchFromAux (fl : ReFlags) (fuel : Nat) (re : Re) (ng : Nat) :
    Nat → MSt → Option (MatchRes × MSt)
  | 0, _ => none
  | iters + 1, st =>
    let st0 : MSt := { st with caps := List.replicate ng none }
    match tryHere fl fuel re st0 with
    | some st' => some (⟨st.pos, st'.pos, st'.caps⟩, st')
    | none =>
      match st.af with
      | [] => none
      | c :: rest =>
        searchFromAux fl fuel re ng iters
          { st with rb := c :: st.rb, af := rest, pos := st.pos + 1 }

/-- Find the leftmost match at or after the position of `st`. -/
def searchFrom (fl : ReFlags) (fuel : Nat) (re : Re) (ng : Nat) (st : MSt) :
    Option (MatchRes × MSt) :=
  searchFromAux fl fuel re ng (st.af.length + 1) st

/-- Initial zipper state for an input. -/
def initSt (cs : List Char) : MSt := ⟨[], cs, 0, []⟩

/-- All matches of a `g`-flagged regex collected by the engine's
`while ((m = re.exec(content)) !== null)` loops.  After a match the scan
resumes at its end.  (A zero-width match would make the JS loop spin
forever; none of the engine's global patterns can match the empty
string, and the model stops there.) -/
def execAllAux (fl : ReFlags) (fuel : Nat) (re : Re) (ng : Nat) :
    Nat → MSt → List MatchRes
  | 0, _ => []
  | iters + 1, st =>
    match searchFrom fl fuel re ng st with
    | none => []
    | some (m, st') =>
      if m.stop > m.start then m :: execAllAux fl fuel re ng iters st'
      else [m]

/-- All matches of `re` (with flags `fl`) in `cs`, in position order. -/
def execAll (fl : ReFlags) (re : Re) (cs : List Char) : List MatchRes :=
  execAllAux fl (fuelFor cs re) re (capCount re) (cs.length + 1) (initSt cs)

/-- First match of `re` in `cs` (JS `re.exec(s)` / `s.match(re)` without `g`). -/
def matchOne (fl : ReFlags) (re : Re) (cs : List Char) : Option MatchRes :=
  (searchFrom fl (fuelFor cs re) re (capCount re) (initSt cs)).map Prod.fst

/-- JS `re.test(s)`. -/
def reTest (fl : ReFlags) (re : Re) (s : String) : Bool :=
  (matchOne fl re s.data).isSome

/-- `s.match(re)` with the `g` flag: like the exec loop but a zero-width
match advances the scan by one character (ECMAScript
`AdvanceStringIndex`), so this always visits the whole input. -/
def matchCountAux (fl : ReFlags) (fuel : Nat) (re : Re) (ng : Nat) :
    Nat → MSt → Nat
  | 0, _ => 0
  | iters + 1, st =>
    match searchFrom fl fuel re ng st with
    | none => 0
    | some (m, st') =>
      if m.stop > m.start then 1 + matchCountAux fl fuel re ng iters st'
      else 1 + matchCountAux fl fuel re ng iters (stepSt st')

/-- `(s.match(re) || []).length` for a `g`-flagged `re`. -/
def matchCount (fl : ReFlags) (re : Re) (cs : List Char) : Nat :=
  matchCountAux fl (fuelFor cs re) re (capCount re) (cs.length + 1) (initSt cs)

/-- The text of capture group `i` of a match over input `cs`
(JS `m[i]`, `none` when the group did not participate). -/
def capStr (cs : List Char) (m : MatchRes) (i : Nat) : Option String :=
  match m.caps.getD (i - 1) none with
  | none => none
  | some (a, b) => some ((cs.drop a).take (b - a)).asString

/-- The whole matched text (JS `m[0]`). -/
def matchStr (cs : List Char) (m : MatchRes) : String :=
  ((cs.drop m.start).take (m.stop - m.start)).asString

/-- JS `s.split(re)` for a non-nullable separator regex: the pieces of
`s` between consecutive matches of `re`. -/
def splitReAux (fl : ReFlags) (fuel : Nat) (re : Re) (ng : Nat) (cs : List Char) :
    Nat → Nat → MSt → List String
  | 0, last, _ => [((cs.drop last).asString)]
  | iters + 1, last, st =>
    match searchFrom fl fuel re ng st with
    | none => [((cs.drop last).asString)]
    | some (m, st') =>
      if m.stop > m.start then
        ((cs.drop last).take (m.start - last)).asString ::
          splitReAux fl fuel re ng cs iters m.stop st'
      else [((cs.drop last).asString)]

/-- JS `s.split(re)`. -/
def splitRe (fl : ReFlags) (re : Re) (s : String) : List String :=
  splitReAux fl (fuelFor s.data re) re (capCount re) s.data (s.data.length + 1) 0
    (initSt s.data)

/-- JS `s.search(re)`: index of the first match, `-1` if none. -/
def searchIdx (fl : ReFlags) (re : Re) (s : String) : Int :=
  match matchOne fl re s.data with
  | some m => (m.start : Int)
  | none => -1

end GitAudit

namespace GitAudit

/-! ## Parsing ECMAScript pattern source

`parsePattern` models the pattern grammar that `new RegExp(src)` and
regex literals accept (the fragment the engine uses, with the Annex B
allowances for a literal `{` that does not open a quantifier).  It
returns `none` where `new RegExp` throws a `SyntaxError` — for example
an unterminated group. -/

/-- Parse a hexadecimal digit. -/
def hexVal (c : Char) : Option Nat :=
  if '0' ≤ c ∧ c ≤ '9' then some (c.toNat - 48)
  else if 'a' ≤ c ∧ c ≤ 'f' then some (c.toNat - 87)
  else if 'A' ≤ c ∧ c ≤ 'F' then some (c.toNat - 55)
  else none

/-- A parsed class member: a single char, or a builtin class escape. -/
inductive ClsUnit
  | one (c : Char)
  | builtin (b : CCls) (neg : Bool)

/-- Parse one unit of a bracketed class (after `[`). -/
def parseClsUnit : List Char → Option (ClsUnit × List Char)
  | [] => none
  | c :: cs =>
    if c = bslash then
      match cs with
      | [] => none
      | e :: cs' =>
        if e = 'd' then some (.builtin .digit false, cs')
        else if e = 'D' then some (.builtin .digit true, cs')
        else if e = 'w' then some (.builtin .word false, cs')
        else if e = 'W' then some (.builtin .word true, cs')
        else if e = 's' then some (.builtin .space false, cs')
        else if e = 'S' then some (.builtin .space true, cs')
        else if e = 'b' then some (.one (Char.ofNat 8), cs')
        else if e = 'n' then some (.one (Char.ofNat 10), cs')
        else if e = 'r' then some (.one (Char.ofNat 13), cs')
        else if e = 't' then some (.one (Char.ofNat 9), cs')
        else if e = 'f' then some (.one (Char.ofNat 12), cs')
        else if e = 'v' then some (.one (Char.ofNat 11), cs')
        else if e = '0' then some (.one (Char.ofNat 0), cs')
        else if e = 'x' then
          match cs' with
          | h1 :: h2 :: cs'' =>
            match hexVal h1, hexVal h2 with
            | some a, some b => some (.one (Char.ofNat (16 * a + b)), cs'')
            | _, _ => some (.one 'x', cs')
          | _ => some (.one 'x', cs')
        else if e = 'u' then
          match cs' with
          | h1 :: h2 :: h3 :: h4 :: cs'' =>
            match hexVal h1, hexVal h2, hexVal h3, hexVal h4 with
            | some a, some b, some c, some d =>
              some (.one (Char.ofNat (4096 * a + 256 * b + 16 * c + d)), cs'')
            | _, _, _, _ => some (.one 'u', cs')
          | _ => some (.one 'u', cs')
        else some (.one e, cs')
    else some (.one c, cs)

/-- Parse the items of a bracketed class up to the closing `]`. -/
def parseClsItems : Nat → List Char → Option (List ClsItem × List Char)
  | 0, _ => none
  | _ + 1, [] => none
  | fuel + 1, c :: cs =>
    if c = ']' then some ([], cs)
    else
      match parseClsUnit (c :: cs) with
      | none => none
      | some (u, rest) =>
        match rest with
        | '-' :: r2 :: rest' =>
          if r2 = ']' then
            -- a `-` just before `]` is a literal
            match u with
            | .one a => some ([.ch a, .ch '-'], rest')
            | .builtin b n => some ([.builtin b n, .ch '-'], rest')
          else
            match u, parseClsUnit (r2 :: rest') with
            | .one a, some (.one b, rest'') =>
              if a.toNat > b.toNat then none
              else
                match parseClsItems fuel rest'' with
                | none => none
                | some (items, rem) => some (.range a b :: items, rem)
            | _, _ =>
              -- Annex B: `-` with a class escape on either side is literal
              match parseClsItems fuel ('-' :: r2 :: rest') with
              | none => none
              | some (items, rem) =>
                match u with
                | .one a => some (.ch a :: items, rem)
                | .builtin b n => some (.builtin b n :: items, rem)
        | _ =>
          match parseClsItems fuel rest with
          | none => none
          | some (items, rem) =>
            match u with
            | .one a => some (.ch a :: items, rem)
            | .builtin b n => some (.builtin b n :: items, rem)

/-- Parse decimal digits; `none` when the first char is not a digit. -/
def parseNum : List Char → Option (Nat × List Char)
  | cs =>
    let ds := cs.takeWhile jsIsDigit
    if ds.isEmpty then none
    else some (parseDigits ds.asString, cs.drop ds.length)

/-- Parse the body of a `{n}`/`{n,}`/`{n,m}` quantifier (after `{`). -/
def parseQuantBody (cs : List Char) : Option (Nat × Option Nat × List Char) :=
  match parseNum cs with
  | none => none
  | some (lo, rest) =>
    match rest with
    | c :: rest' =>
      if c = rbrace then some (lo, some lo, rest')
      else if c = ',' then
        match rest' with
        | d :: rest'' =>
          if d = rbrace then some (lo, none, rest'')
          else
            match parseNum (d :: rest'') with
            | none => none
            | some (hi, rest3) =>
              match rest3 with
              | e :: rest4 => if e = rbrace then some (lo, some hi, rest4) else none
              | [] => none
        | [] => none
      else none
    | [] => none

/-- Is this `Re` a plain assertion (which ECMAScript refuses to quantify)?
Annex B permits quantified look-aheads, so those are not included. -/
def isBareAssertion : Re → Bool
  | .wordB _ => true
  | .bol => true
  | .eol => true
  | .look true _ _ => true
  | _ => false

end GitAudit

namespace GitAudit

/-! ## The pattern parser proper -/

/-- Parser mode: disjunction, sequence, quantified term, or atom. -/
inductive PMode
  | altM | seqM | termM | atomM

/-- The recursive-descent parser, structurally recursive on fuel.
`altM` parses a disjunction (stopping at `)` or end), `seqM` a
concatenation (stopping at `|`, `)` or end), `termM` one atom with an
optional quantifier, `atomM` a single atom.  The `Nat` component threads
the capturing-group counter. -/
def parseRun : Nat → PMode → List Char → Nat → Option (Re × List Char × Nat)
  | 0, _, _, _ => none
  | fuel + 1, .altM, cs, gc =>
    match parseRun fuel .seqM cs gc with
    | none => none
    | some (r, rest, gc') =>
      match rest with
      | '|' :: rest' =>
        match parseRun fuel .altM rest' gc' with
        | none => none
        | some (r2, rest'', gc'') => some (.alt r r2, rest'', gc'')
      | _ => some (r, rest, gc')
  | fuel + 1, .seqM, cs, gc =>
    match cs with
    | [] => some (.eps, [], gc)
    | c :: _ =>
      if c = '|' ∨ c = ')' then some (.eps, cs, gc)
      else
        match parseRun fuel .termM cs gc with
        | none => none
        | some (r, rest, gc') =>
          match parseRun fuel .seqM rest gc' with
          | none => none
          | some (r2, rest', gc'') =>
            some (match r2 with | .eps => r | _ => .seq r r2, rest', gc'')
  | fuel + 1, .termM, cs, gc =>
    match parseRun fuel .atomM cs gc with
    | none => none
    | some (r, rest, gc') =>
      let quant : Option (Nat × Option Nat × List Char) :=
        match rest with
        | '*' :: rest' => some (0, none, rest')
        | '+' :: rest' => some (1, none, rest')
        | '?' :: rest' => some (0, some 1, rest')
        | c :: rest' => if c = lbrace then parseQuantBody rest' else none
        | [] => none
      match quant with
      | none => some (r, rest, gc')
      | some (lo, hi, rest') =>
        if isBareAssertion r then none
        else
          match rest' with
          | '?' :: rest'' => some (.rep r lo hi true, rest'', gc')
          | _ => some (.rep r lo hi false, rest', gc')
  | fuel + 1, .atomM, cs, gc =>
    match cs with
    | [] => none
    | c :: rest =>
      if c = '(' then
        match rest with
        | '?' :: ':' :: rest' =>
          match parseRun fuel .altM rest' gc with
          | some (r, ')' :: rest'', gc') => some (r, rest'', gc')
          | _ => none
        | '?' :: '=' :: rest' =>
          match parseRun fuel .altM rest' gc with
          | some (r, ')' :: rest'', gc') => some (.look false false r, rest'', gc')
          | _ => none
        | '?' :: '!' :: rest' =>
          match parseRun fuel .altM rest' gc with
          | some (r, ')' :: rest'', gc') => some (.look false true r, rest'', gc')
          | _ => none
        | '?' :: '<' :: '=' :: rest' =>
          match parseRun fuel .altM rest' gc with
          | some (r, ')' :: rest'', gc') => some (.look true false r, rest'', gc')
          | _ => none
        | '?' :: '<' :: '!' :: rest' =>
          match parseRun fuel .altM rest' gc with
          | some (r, ')' :: rest'', gc') => some (.look true true r, rest'', gc')
          | _ => none
        | '?' :: _ => none
        | _ =>
          match parseRun fuel .altM rest (gc + 1) with
          | some (r, ')' :: rest'', gc') => some (.grp (gc + 1) r, rest'', gc')
          | _ => none
      else if c = '[' then
        match rest with
        | '^' :: rest' =>
          match parseClsItems (rest'.length + 1) rest' with
          | some (items, rem) => some (.cls true items, rem, gc)
          | none => none
        | _ =>
          match parseClsItems (rest.length + 1) rest with
          | some (items, rem) => some (.cls false items, rem, gc)
          | none => none
      else if c = bslash then
        match rest with
        | [] => none
        | e :: rest' =>
          if e = 'd' then some (.cls false [.builtin .digit false], rest', gc)
          else if e = 'D' then some (.cls true [.builtin .digit false], rest', gc)
          else if e = 'w' then some (.cls false [.builtin .word false], rest', gc)
          else if e = 'W' then some (.cls true [.builtin .word false], rest', gc)
          else if e = 's' then some (.cls false [.builtin .space false], rest', gc)
          else if e = 'S' then some (.cls true [.builtin .space false], rest', gc)
          else if e = 'b' then some (.wordB false, rest', gc)
          else if e = 'B' then some (.wordB true, rest', gc)
          else if e = 'n' then some (.ch (Char.ofNat 10), rest', gc)
          else if e = 'r' then some (.ch (Char.ofNat 13), rest', gc)
          else if e = 't' then some (.ch (Char.ofNat 9), rest', gc)
          else if e = 'f' then some (.ch (Char.ofNat 12), rest', gc)
          else if e = 'v' then some (.ch (Char.ofNat 11), rest', gc)
          else if e = '0' then some (.ch (Char.ofNat 0), rest', gc)
          else if jsIsDigit e then none
          else if e = 'x' then
            match rest' with
            | h1 :: h2 :: rest'' =>
              match hexVal h1, hexVal h2 with
              | some a, some b => some (.ch (Char.ofNat (16 * a + b)), rest'', gc)
              | _, _ => some (.ch 'x', rest', gc)
            | _ => some (.ch 'x', rest', gc)
          else if e = 'u' then
            match rest' with
            | h1 :: h2 :: h3 :: h4 :: rest'' =>
              match hexVal h1, hexVal h2, hexVal h3, hexVal h4 with
              | some a, some b, some c', some d =>
                some (.ch (Char.ofNat (4096 * a + 256 * b + 16 * c' + d)), rest'', gc)
              | _, _, _, _ => some (.ch 'u', rest', gc)
            | _ => some (.ch 'u', rest', gc)
          else some (.ch e, rest', gc)
      else if c = '.' then some (.dot, rest, gc)
      else if c = '^' then some (.bol, rest, gc)
      else if c = '$' then some (.eol, rest, gc)
      else if c = '*' ∨ c = '+' ∨ c = '?' ∨ c = ')' then none
      else some (.ch c, rest, gc)

/-- Model of `new RegExp(src)`: `none` where JS throws a `SyntaxError`. -/
def parsePattern (src : String) : Option Re :=
  match parseRun (8 * src.length + 64) .altM src.data 0 with
  | some (r, [], _) => some r
  | _ => none

/-- A compiled regex with its flags (a JS regex literal). -/
structure JsRegex where
  re : Re
  flags : ReFlags := {}

/-- Build a `JsRegex` from pattern source (engine literals all parse;
the fallback is never reached on them). -/
def rx (src : String) : JsRegex := ⟨(parsePattern src).getD .eps, {}⟩

/-- `rx` with the `i` flag. -/
def rxI (src : String) : JsRegex := ⟨(parsePattern src).getD .eps, ⟨true, false⟩⟩

/-- `rx` with the `m` flag. -/
def rxM (src : String) : JsRegex := ⟨(parsePattern src).getD .eps, ⟨false, true⟩⟩

/-- `rx` with the `i` and `m` flags. -/
def rxIM (src : String) : JsRegex := ⟨(parsePattern src).getD .eps, ⟨true, true⟩⟩

/-- All matches of a global regex in `s` (the engine's exec loops). -/
def rxExecAll (r : JsRegex) (s : String) : List MatchRes :=
  execAll r.flags r.re s.data

/-- First match (JS `s.match(re)` without `g`). -/
def rxMatch (r : JsRegex) (s : String) : Option MatchRes :=
  matchOne r.flags r.re s.data

/-- JS `re.test(s)`. -/
def rxTest (r : JsRegex) (s : String) : Bool := reTest r.flags r.re s

/-- JS `(s.match(re) || []).length` for a global regex. -/
def rxCount (r : JsRegex) (s : String) : Nat := matchCount r.flags r.re s.data

end GitAudit

namespace GitAudit

/-! ## Language classification (`cli/src/languages.js`) -/

/-- A language descriptor: display name, family tag, line-comment marker. -/
structure LangInfo where
  name : String
  family : String
  comment : Option String
  deriving DecidableEq

/-- `LANGUAGES`, part 1 (split to keep elaboration fast). -/
def languagesTable1 : List (String × LangInfo) := [
  (".js", ⟨"JavaScript", "js", some "//"⟩),
  (".mjs", ⟨"JavaScript (ESM)", "js", some "//"⟩),
  (".cjs", ⟨"JavaScript (CJS)", "js", some "//"⟩),
  (".jsx", ⟨"React JSX", "js", some "//"⟩),
  (".ts", ⟨"TypeScript", "ts", some "//"⟩),
  (".tsx", ⟨"TypeScript React", "ts", some "//"⟩),
  (".vue", ⟨"Vue", "js", some "//"⟩),
  (".svelte", ⟨"Svelte", "js", some "//"⟩),
  (".astro", ⟨"Astro", "js", some "//"⟩),
  (".coffee", ⟨"CoffeeScript", "coffee", some "#"⟩),
  (".css", ⟨"CSS", "css", some "/*"⟩),
  (".scss", ⟨"SCSS", "css", some "//"⟩),
  (".sass", ⟨"Sass", "css", some "//"⟩),
  (".less", ⟨"Less", "css", some "//"⟩),
  (".styl", ⟨"Stylus", "css", some "//"⟩),
  (".html", ⟨"HTML", "html", some "<!--"⟩),
  (".htm", ⟨"HTML", "html", some "<!--"⟩),
  (".xml", ⟨"XML", "xml", some "<!--"⟩),
  (".xhtml", ⟨"XHTML", "html", some "<!--"⟩),
  (".svg", ⟨"SVG", "xml", some "<!--"⟩)]

/-- `LANGUAGES`, part 2 (split to keep elaboration fast). -/
def languagesTable2 : List (String × LangInfo) := [
  (".pug", ⟨"Pug", "html", some "//"⟩),
  (".ejs", ⟨"EJS", "html", some "<%#"⟩),
  (".hbs", ⟨"Handlebars", "html", some "\x7b\x7b!"⟩),
  (".mustache", ⟨"Mustache", "html", some "\x7b\x7b!"⟩),
  (".njk", ⟨"Nunjucks", "html", some "\x7b#"⟩),
  (".twig", ⟨"Twig", "html", some "\x7b#"⟩),
  (".erb", ⟨"ERB", "html", some "<%#"⟩),
  (".haml", ⟨"Haml", "html", some "-#"⟩),
  (".slim", ⟨"Slim", "html", some "/"⟩),
  (".blade.php", ⟨"Blade", "html", some "\x7b\x7b--"⟩),
  (".jsp", ⟨"JSP", "html", some "<%--"⟩),
  (".py", ⟨"Python", "python", some "#"⟩),
  (".pyw", ⟨"Python (Windows)", "python", some "#"⟩),
  (".pyx", ⟨"Cython", "python", some "#"⟩),
  (".pxd", ⟨"Cython Declaration", "python", some "#"⟩),
  (".pyi", ⟨"Python Stub", "python", some "#"⟩),
  (".ipynb", ⟨"Jupyter Notebook", "python", some "#"⟩),
  (".rb", ⟨"Ruby", "ruby", some "#"⟩),
  (".rake", ⟨"Rake", "ruby", some "#"⟩),
  (".gemspec", ⟨"Gemspec", "ruby", some "#"⟩)]

/-- `LANGUAGES`, part 3 (split to keep elaboration fast). -/
def languagesTable3 : List (String × LangInfo) := [
  (".php", ⟨"PHP", "php", some "//"⟩),
  (".phtml", ⟨"PHP Template", "php", some "//"⟩),
  (".java", ⟨"Java", "java", some "//"⟩),
  (".kt", ⟨"Kotlin", "kotlin", some "//"⟩),
  (".kts", ⟨"Kotlin Script", "kotlin", some "//"⟩),
  (".scala", ⟨"Scala", "scala", some "//"⟩),
  (".groovy", ⟨"Groovy", "groovy", some "//"⟩),
  (".gradle", ⟨"Gradle", "groovy", some "//"⟩),
  (".clj", ⟨"Clojure", "clojure", some ";"⟩),
  (".cljs", ⟨"ClojureScript", "clojure", some ";"⟩),
  (".cs", ⟨"C#", "csharp", some "//"⟩),
  (".csx", ⟨"C# Script", "csharp", some "//"⟩),
  (".fs", ⟨"F#", "fsharp", some "//"⟩),
  (".fsx", ⟨"F# Script", "fsharp", some "//"⟩),
  (".vb", ⟨"Visual Basic", "vb", some "\x27"⟩),
  (".razor", ⟨"Razor", "csharp", some "//"⟩),
  (".cshtml", ⟨"Razor HTML", "csharp", some "//"⟩),
  (".c", ⟨"C", "c", some "//"⟩),
  (".h", ⟨"C Header", "c", some "//"⟩),
  (".cpp", ⟨"C++", "cpp", some "//"⟩)]

/-- `LANGUAGES`, part 4 (split to keep elaboration fast). -/
def languagesTable4 : List (String × LangInfo) := [
  (".cxx", ⟨"C++", "cpp", some "//"⟩),
  (".cc", ⟨"C++", "cpp", some "//"⟩),
  (".hpp", ⟨"C++ Header", "cpp", some "//"⟩),
  (".hxx", ⟨"C++ Header", "cpp", some "//"⟩),
  (".m", ⟨"Objective-C", "objc", some "//"⟩),
  (".mm", ⟨"Objective-C++", "objc", some "//"⟩),
  (".rs", ⟨"Rust", "rust", some "//"⟩),
  (".go", ⟨"Go", "go", some "//"⟩),
  (".zig", ⟨"Zig", "zig", some "//"⟩),
  (".nim", ⟨"Nim", "nim", some "#"⟩),
  (".v", ⟨"V", "vlang", some "//"⟩),
  (".d", ⟨"D", "d", some "//"⟩),
  (".ada", ⟨"Ada", "ada", some "--"⟩),
  (".adb", ⟨"Ada Body", "ada", some "--"⟩),
  (".ads", ⟨"Ada Spec", "ada", some "--"⟩),
  (".pas", ⟨"Pascal", "pascal", some "//"⟩),
  (".pp", ⟨"Pascal", "pascal", some "//"⟩),
  (".f", ⟨"Fortran", "fortran", some "!"⟩),
  (".f90", ⟨"Fortran 90", "fortran", some "!"⟩),
  (".f95", ⟨"Fortran 95", "fortran", some "!"⟩)]

/-- `LANGUAGES`, part 5 (split to keep elaboration fast). -/
def languagesTable5 : List (String × LangInfo) := [
  (".f03", ⟨"Fortran 2003", "fortran", some "!"⟩),
  (".for", ⟨"Fortran", "fortran", some "!"⟩),
  (".cob", ⟨"COBOL", "cobol", some "*>"⟩),
  (".cbl", ⟨"COBOL", "cobol", some "*>"⟩),
  (".swift", ⟨"Swift", "swift", some "//"⟩),
  (".hs", ⟨"Haskell", "haskell", some "--"⟩),
  (".lhs", ⟨"Literate Haskell", "haskell", some "--"⟩),
  (".ml", ⟨"OCaml", "ocaml", some "(*"⟩),
  (".mli", ⟨"OCaml Interface", "ocaml", some "(*"⟩),
  (".ex", ⟨"Elixir", "elixir", some "#"⟩),
  (".exs", ⟨"Elixir Script", "elixir", some "#"⟩),
  (".erl", ⟨"Erlang", "erlang", some "%"⟩),
  (".hrl", ⟨"Erlang Header", "erlang", some "%"⟩),
  (".elm", ⟨"Elm", "elm", some "--"⟩),
  (".gleam", ⟨"Gleam", "gleam", some "//"⟩),
  (".rkt", ⟨"Racket", "racket", some ";"⟩),
  (".scm", ⟨"Scheme", "scheme", some ";"⟩),
  (".lisp", ⟨"Common Lisp", "lisp", some ";"⟩),
  (".cl", ⟨"Common Lisp", "lisp", some ";"⟩),
  (".sh", ⟨"Shell", "shell", some "#"⟩)]

/-- `LANGUAGES`, part 6 (split to keep elaboration fast). -/
def languagesTable6 : List (String × LangInfo) := [
  (".bash", ⟨"Bash", "shell", some "#"⟩),
  (".zsh", ⟨"Zsh", "shell", some "#"⟩),
  (".fish", ⟨"Fish", "shell", some "#"⟩),
  (".ps1", ⟨"PowerShell", "powershell", some "#"⟩),
  (".psm1", ⟨"PowerShell Module", "powershell", some "#"⟩),
  (".psd1", ⟨"PowerShell Data", "powershell", some "#"⟩),
  (".bat", ⟨"Batch", "batch", some "REM"⟩),
  (".cmd", ⟨"Batch", "batch", some "REM"⟩),
  (".lua", ⟨"Lua", "lua", some "--"⟩),
  (".pl", ⟨"Perl", "perl", some "#"⟩),
  (".pm", ⟨"Perl Module", "perl", some "#"⟩),
  (".r", ⟨"R", "r", some "#"⟩),
  (".R", ⟨"R", "r", some "#"⟩),
  (".rmd", ⟨"R Markdown", "r", some "#"⟩),
  (".jl", ⟨"Julia", "julia", some "#"⟩),
  (".tcl", ⟨"Tcl", "tcl", some "#"⟩),
  (".awk", ⟨"AWK", "awk", some "#"⟩),
  (".sed", ⟨"Sed", "sed", some "#"⟩),
  (".dart", ⟨"Dart", "dart", some "//"⟩),
  (".json", ⟨"JSON", "json", none⟩)]

/-- `LANGUAGES`, part 7 (split to keep elaboration fast). -/
def languagesTable7 : List (String × LangInfo) := [
  (".jsonc", ⟨"JSON with Comments", "json", some "//"⟩),
  (".json5", ⟨"JSON5", "json", some "//"⟩),
  (".yaml", ⟨"YAML", "yaml", some "#"⟩),
  (".yml", ⟨"YAML", "yaml", some "#"⟩),
  (".toml", ⟨"TOML", "toml", some "#"⟩),
  (".ini", ⟨"INI", "ini", some ";"⟩),
  (".cfg", ⟨"Config", "ini", some "#"⟩),
  (".conf", ⟨"Config", "ini", some "#"⟩),
  (".env", ⟨"Environment", "env", some "#"⟩),
  (".properties", ⟨"Properties", "properties", some "#"⟩),
  (".csv", ⟨"CSV", "csv", none⟩),
  (".sql", ⟨"SQL", "sql", some "--"⟩),
  (".graphql", ⟨"GraphQL", "graphql", some "#"⟩),
  (".gql", ⟨"GraphQL", "graphql", some "#"⟩),
  (".prisma", ⟨"Prisma", "prisma", some "//"⟩),
  (".md", ⟨"Markdown", "markdown", none⟩),
  (".mdx", ⟨"MDX", "markdown", none⟩),
  (".rst", ⟨"reStructuredText", "rst", some ".."⟩),
  (".tex", ⟨"LaTeX", "latex", some "%"⟩),
  (".txt", ⟨"Plain Text", "text", none⟩)]

/-- `LANGUAGES`, part 8 (split to keep elaboration fast). -/
def languagesTable8 : List (String × LangInfo) := [
  (".adoc", ⟨"AsciiDoc", "asciidoc", some "//"⟩),
  (".tf", ⟨"Terraform", "hcl", some "#"⟩),
  (".hcl", ⟨"HCL", "hcl", some "#"⟩),
  (".tfvars", ⟨"Terraform Vars", "hcl", some "#"⟩),
  (".proto", ⟨"Protocol Buffers", "proto", some "//"⟩),
  (".thrift", ⟨"Thrift", "thrift", some "//"⟩),
  (".nix", ⟨"Nix", "nix", some "#"⟩),
  (".dhall", ⟨"Dhall", "dhall", some "--"⟩),
  (".wat", ⟨"WebAssembly Text", "wasm", some ";;"⟩),
  (".wast", ⟨"WebAssembly Script", "wasm", some ";;"⟩),
  (".sol", ⟨"Solidity", "solidity", some "//"⟩),
  (".vy", ⟨"Vyper", "vyper", some "#"⟩),
  (".move", ⟨"Move", "move", some "//"⟩),
  (".gd", ⟨"GDScript", "gdscript", some "#"⟩),
  (".gdshader", ⟨"Godot Shader", "shader", some "//"⟩),
  (".shader", ⟨"Unity Shader", "shader", some "//"⟩),
  (".hlsl", ⟨"HLSL", "shader", some "//"⟩),
  (".glsl", ⟨"GLSL", "shader", some "//"⟩),
  (".wgsl", ⟨"WGSL", "shader", some "//"⟩)]

/-- The `LANGUAGES` extension table, in source order. -/
def languagesTable : List (String × LangInfo) :=
  languagesTable1 ++ languagesTable2 ++ languagesTable3 ++ languagesTable4 ++ languagesTable5 ++ languagesTable6 ++ languagesTable7 ++ languagesTable8

/-- `FILENAME_LANGUAGES`, part 1. -/
def filenameLanguagesTable1 : List (String × LangInfo) := [
  ("Dockerfile", ⟨"Dockerfile", "docker", some "#"⟩),
  ("docker-compose.yml", ⟨"Docker Compose", "yaml", some "#"⟩),
  ("docker-compose.yaml", ⟨"Docker Compose", "yaml", some "#"⟩),
  ("Makefile", ⟨"Makefile", "make", some "#"⟩),
  ("GNUmakefile", ⟨"Makefile", "make", some "#"⟩),
  ("CMakeLists.txt", ⟨"CMake", "cmake", some "#"⟩),
  ("Gemfile", ⟨"Gemfile", "ruby", some "#"⟩),
  ("Rakefile", ⟨"Rakefile", "ruby", some "#"⟩),
  ("Vagrantfile", ⟨"Vagrantfile", "ruby", some "#"⟩),
  ("Cargo.toml", ⟨"Cargo Config", "toml", some "#"⟩),
  ("Cargo.lock", ⟨"Cargo Lock", "toml", some "#"⟩),
  ("go.mod", ⟨"Go Module", "go", some "//"⟩),
  ("go.sum", ⟨"Go Checksum", "text", none⟩),
  ("package.json", ⟨"npm Config", "json", none⟩),
  ("tsconfig.json", ⟨"TypeScript Config", "json", none⟩),
  ("webpack.config.js", ⟨"Webpack Config", "js", some "//"⟩),
  ("vite.config.ts", ⟨"Vite Config", "ts", some "//"⟩),
  ("vite.config.js", ⟨"Vite Config", "js", some "//"⟩),
  (".gitignore", ⟨"Git Ignore", "gitignore", some "#"⟩)]

/-- `FILENAME_LANGUAGES`, part 2. -/
def filenameLanguagesTable2 : List (String × LangInfo) := [
  (".dockerignore", ⟨"Docker Ignore", "gitignore", some "#"⟩),
  (".editorconfig", ⟨"EditorConfig", "ini", some "#"⟩),
  (".eslintrc", ⟨"ESLint Config", "json", none⟩),
  (".prettierrc", ⟨"Prettier Config", "json", none⟩),
  ("Pipfile", ⟨"Pipfile", "toml", some "#"⟩),
  ("Procfile", ⟨"Procfile", "text", some "#"⟩),
  ("Jenkinsfile", ⟨"Jenkinsfile", "groovy", some "//"⟩),
  ("justfile", ⟨"Justfile", "make", some "#"⟩),
  ("BUILD", ⟨"Bazel", "python", some "#"⟩),
  ("BUILD.bazel", ⟨"Bazel", "python", some "#"⟩),
  ("WORKSPACE", ⟨"Bazel Workspace", "python", some "#"⟩),
  (".bazelrc", ⟨"Bazel Config", "ini", some "#"⟩),
  ("meson.build", ⟨"Meson", "python", some "#"⟩),
  ("SConstruct", ⟨"SCons", "python", some "#"⟩),
  ("SConscript", ⟨"SCons", "python", some "#"⟩),
  ("flake.nix", ⟨"Nix Flake", "nix", some "#"⟩),
  ("default.nix", ⟨"Nix", "nix", some "#"⟩),
  ("shell.nix", ⟨"Nix Shell", "nix", some "#"⟩)]

/-- The `FILENAME_LANGUAGES` exact-basename table, in source order. -/
def filenameLanguagesTable : List (String × LangInfo) :=
  filenameLanguagesTable1 ++ filenameLanguagesTable2

/-- The `BINARY_EXTENSIONS` set. -/
def binaryExtensions : List String := [
  ".png", ".jpg", ".jpeg", ".gif", ".ico", ".bmp", ".tiff", ".webp", ".avif",
  ".svg",
  ".woff", ".woff2", ".ttf", ".eot", ".otf",
  ".mp3", ".mp4", ".wav", ".avi", ".mov", ".flac", ".ogg", ".webm", ".mkv",
  ".pdf", ".doc", ".docx", ".xls", ".xlsx", ".ppt", ".pptx",
  ".zip", ".tar", ".gz", ".bz2", ".rar", ".7z", ".xz", ".zst",
  ".exe", ".dll", ".so", ".dylib", ".a", ".lib", ".o", ".obj",
  ".class", ".jar", ".war", ".pyc", ".pyo", ".whl", ".egg",
  ".db", ".sqlite", ".sqlite3", ".mdb",
  ".bin", ".dat", ".iso", ".img", ".dmg",
  ".lock",
  ".map",
  ".min.js", ".min.css"]

/-- `path.basename` (POSIX): the part after the last `/`, with trailing
slashes stripped. -/
def basenameOf (p : String) : String :=
  let cs := p.data.reverse.dropWhile (· = '/')
  (cs.takeWhile (· ≠ '/')).reverse.asString

/-- `path.extname`: the final `.`-suffix of the basename; empty when the
basename has no dot, or only a leading dot. -/
def extnameOf (p : String) : String :=
  let cs := (basenameOf p).data
  let tl := cs.reverse.takeWhile (· ≠ '.')
  if tl.length = cs.length then ""
  else if tl.length + 1 = cs.length then ""
  else ('.' :: tl.reverse).asString

/-- The fallback descriptor for unrecognized paths. -/
def otherLang : LangInfo := ⟨"Other", "other", none⟩

/-- `getLanguage(filePath)`: filename-exact match, then compound
extension (everything after the first dot of the basename), then plain
extension (lower-cased), else the fallback descriptor. -/
def getLanguage (filePath : String) : LangInfo :=
  let base := basenameOf filePath
  match filenameLanguagesTable.find? (fun p => p.1 = base) with
  | some p => p.2
  | none =>
    let compound :=
      if jsIncludes base "." then
        "." ++ String.intercalate "." ((splitOnChar '.' base).drop 1)
      else ""
    match (if compound ≠ "" then languagesTable.find? (fun p => p.1 = compound) else none) with
    | some p => p.2
    | none =>
      let ext := jsToLower (extnameOf filePath)
      match languagesTable.find? (fun p => p.1 = ext) with
      | some p => p.2
      | none => otherLang

/-- `isBinaryFile(filePath)`. -/
def isBinaryFile (filePath : String) : Bool :=
  let ext := jsToLower (extnameOf filePath)
  let base := jsToLower (basenameOf filePath)
  binaryExtensions.contains ext ||
  (base = "package-lock.json" || base = "yarn.lock" ||
    base = "pnpm-lock.yaml" || base = "composer.lock" ||
    base = "Gemfile.lock" || base = "Pipfile.lock" ||
    base = "poetry.lock" || base = "Cargo.lock") ||
  (jsEndsWith base ".min.js" || jsEndsWith base ".min.css" ||
    jsEndsWith base ".bundle.js" || jsEndsWith base ".chunk.js")

end GitAudit

namespace GitAudit

/-! ## Engine data model (`cli/src/audit-engine.js`) -/

/-- Issue categories: the four `type:` literals the engine uses. -/
inductive IType
  | security | performance | quality | unused
  deriving DecidableEq

/-- Issue severities: the three `severity:` literals the engine uses. -/
inductive Severity
  | critical | warning | info
  deriving DecidableEq

/-- One line of an issue's context window (`_ctx` output entry). -/
structure CtxLine where
  number : Nat
  content : String
  highlight : Bool
  deriving DecidableEq

/-- The `code` field of an issue: either a `_ctx` window or plain text. -/
inductive CodeField
  | ctxC (entries : List CtxLine)
  | textC (s : String)
  deriving DecidableEq

/-- An issue as handed to `addIssue` (everything except the id). -/
structure Candidate where
  itype : IType
  severity : Severity
  title : String
  description : String
  file : String
  line : Nat
  code : CodeField
  suggestion : Option String
  deriving DecidableEq

/-- A recorded issue: a sequential id plus the candidate data. -/
structure Issue where
  id : Nat
  data : Candidate
  deriving DecidableEq

/-- A per-file record appended by `analyzeFile`. -/
structure FileRecord where
  path : String
  language : String
  family : String
  lines : Nat
  size : Nat
  deriving DecidableEq

/-- The `statistics` object (language histogram as insertion-ordered pairs). -/
structure Statistics where
  totalFiles : Nat
  totalLines : Nat
  analyzedFiles : Nat
  analyzedLines : Nat
  languages : List (String × Nat)
  deriving DecidableEq

/-- The `scores` object. -/
structure Scores where
  security : Int
  performance : Int
  quality : Int
  cleanliness : Int
  overall : Int
  deriving DecidableEq

/-- The engine's mutable fields. -/
structure EngineState where
  issues : List Issue
  files : List FileRecord
  statistics : Statistics
  scores : Scores
  deriving DecidableEq

/-- `reset()`: the state a fresh engine starts from. -/
def resetState : EngineState :=
  { issues := []
    files := []
    statistics := ⟨0, 0, 0, 0, []⟩
    scores := ⟨100, 100, 100, 100, 100⟩ }

/-- `reset()` as a transition: discards everything. -/
def resetEngine (_ : EngineState) : EngineState := resetState

/-- `addIssue(issue)`: drop the candidate when an issue with the same
`(file, line, title)` key exists, else append with the next id. -/
def addIssue (issues : List Issue) (c : Candidate) : List Issue :=
  if issues.any fun i =>
      i.data.file == c.file && i.data.line == c.line && i.data.title == c.title
  then issues
  else issues ++ [⟨issues.length + 1, c⟩]

/-- `_lineAt(content, index)`: 1-based line of a character offset. -/
def lineAt (content : String) (index : Nat) : Nat :=
  ((content.data.take index).count '\n') + 1

/-- `_ctx(lines, lineNumber, around = 1)`: the context window. -/
def ctxWindow (lines : List String) (lineNumber : Nat) (around : Nat := 1) :
    List CtxLine :=
  let start := lineNumber - (around + 1)
  let stop := min lines.length (lineNumber + around)
  (((lines.drop start).take (stop - start)).enum).map fun p =>
    ⟨start + p.1 + 1, p.2, start + p.1 + 1 == lineNumber⟩

/-- `_isInsidePattern(line)`: the self-matching guard. -/
def isInsidePattern (line : String) : Bool :=
  let trimmed := jsTrim line
  (rxTest (rx "/[^/]+/[gimsuy]\x7b0,6\x7d") trimmed &&
    rxTest (rx "pattern|push\\s*\\(\\s*\\\x7b|pats\\.push|funcs\\.push") trimmed) ||
  rxTest (rx "^\\\x7b?\\s*pattern\\s*:") trimmed ||
  rxTest (rx "(?:const|let|var)\\s+\\w+(?:Pat(?:tern)?|Re(?:gex)?)\\s*=\\s*/") trimmed ||
  rxTest (rx "new\\s+RegExp\\s*\\(") trimmed ||
  rxTest (rx "\\.push\\s*\\(\\s*\\\x7b.*pattern\\s*:") trimmed ||
  rxTest (rx "\\\x7b\\s*pattern\\s*:\\s*/") trimmed

/-- `_matchPattern(...)`: one candidate per match whose source line does
not look like a rule-pattern definition. -/
def matchPatternCands (path content : String) (lines : List String) (r : JsRegex)
    (t : IType) (sev : Severity) (title descr : String) (sugg : Option String) :
    List Candidate :=
  ((rxExecAll r content).filter fun m =>
    !(isInsidePattern (lines.getD (lineAt content m.start - 1) ""))).map fun m =>
    let ln := lineAt content m.start
    ⟨t, sev, title, descr, path, ln, .ctxC (ctxWindow lines ln 1), sugg⟩

/-- `_matchAll(...)`: one candidate per match of each tagged pattern. -/
def matchAllCands (path content : String) (lines : List String)
    (pats : List (JsRegex × String)) (t : IType) (sev : Severity)
    (titleFn descFn : String → String) (sugg : String) : List Candidate :=
  pats.flatMap fun pr =>
    (rxExecAll pr.1 content).map fun m =>
      let ln := lineAt content m.start
      ⟨t, sev, titleFn pr.2, descFn pr.2, path, ln, .ctxC (ctxWindow lines ln 1),
        some sugg⟩

end GitAudit

namespace GitAudit

/-! ## Security analysis (`runSecurityAnalysis`) -/

/-- The `secretPatterns` table. -/
def secretPatterns : List (JsRegex × String) := [
  (rxI "[\x27\x22`](?:api[_-]?key|apikey)[\x27\x22`]\\s*[:=]\\s*[\x27\x22`]([^\x27\x22`]\x7b8,\x7d)[\x27\x22`]", "API Key"),
  (rxI "[\x27\x22`](?:secret|password|passwd|pwd)[\x27\x22`]\\s*[:=]\\s*[\x27\x22`]([^\x27\x22`]\x7b4,\x7d)[\x27\x22`]", "Secret/Password"),
  (rxI "(?:aws_access_key_id|aws_secret_access_key)\\s*[:=]\\s*[\x27\x22`]?([A-Z0-9]\x7b16,\x7d)[\x27\x22`]?", "AWS Credentials"),
  (rx "(?:AKIA|ASIA)[A-Z0-9]\x7b16\x7d", "AWS Access Key ID"),
  (rx "ghp_[a-zA-Z0-9]\x7b36\x7d", "GitHub Personal Access Token"),
  (rx "github_pat_[a-zA-Z0-9]\x7b22\x7d_[a-zA-Z0-9]\x7b59\x7d", "GitHub Fine-grained Token"),
  (rx "gho_[a-zA-Z0-9]\x7b36\x7d", "GitHub OAuth Token"),
  (rx "ghs_[a-zA-Z0-9]\x7b36\x7d", "GitHub Server Token"),
  (rx "sk-[a-zA-Z0-9]\x7b48\x7d", "OpenAI API Key"),
  (rx "sk-ant-[a-zA-Z0-9-]\x7b80,\x7d", "Anthropic API Key"),
  (rx "xox[baprs]-[0-9]\x7b10,13\x7d-[0-9]\x7b10,13\x7d[a-zA-Z0-9-]*", "Slack Token"),
  (rx "-----BEGIN (?:RSA|DSA|EC|OPENSSH|PGP) PRIVATE KEY-----", "Private Key"),
  (rxI "mongodb(?:\\+srv)?://[^:]+:[^@]+@[^\\s\x27\x22`]+", "MongoDB Connection String"),
  (rxI "postgres(?:ql)?://[^:]+:[^@]+@[^\\s\x27\x22`]+", "PostgreSQL Connection String"),
  (rxI "mysql://[^:]+:[^@]+@[^\\s\x27\x22`]+", "MySQL Connection String"),
  (rxI "redis://[^:]*:[^@]+@[^\\s\x27\x22`]+", "Redis Connection String"),
  (rxI "amqp://[^:]+:[^@]+@[^\\s\x27\x22`]+", "AMQP Connection String"),
  (rx "SG\\.[a-zA-Z0-9_-]\x7b22\x7d\\.[a-zA-Z0-9_-]\x7b43\x7d", "SendGrid API Key"),
  (rx "sq0[a-z]\x7b3\x7d-[0-9A-Za-z_-]\x7b22,\x7d", "Square Token"),
  (rx "sk_live_[0-9a-zA-Z]\x7b24,\x7d", "Stripe Secret Key"),
  (rx "pk_live_[0-9a-zA-Z]\x7b24,\x7d", "Stripe Publishable Key"),
  (rx "eyJ[a-zA-Z0-9_-]\x7b10,\x7d\\.[a-zA-Z0-9_-]\x7b10,\x7d\\.[a-zA-Z0-9_-]\x7b10,\x7d", "JWT Token (hardcoded)")]

/-- Families that get the SQL-injection rules. -/
def sqlFamilies : List String :=
  ["js", "ts", "python", "ruby", "php", "java", "kotlin",
    "csharp", "go", "rust", "perl", "elixir", "groovy", "scala"]

/-- `_runSqlInjection`: per-family SQL-injection patterns. -/
def sqlInjectionCands (path content : String) (lines : List String)
    (lang : LangInfo) : List Candidate :=
  let fam := lang.family
  let pats : List JsRegex :=
    (if fam = "js" ∨ fam = "ts" then
      [rxI "`(?:SELECT|INSERT|UPDATE|DELETE)\\b[^`]*\\$\\\x7b[^\x7d]+\\\x7d[^`]*`",
        rxI "(?:query|execute)\\s*\\(\\s*[\x27\x22`].*\\+\\s*\\w+"]
      else []) ++
    (if fam = "python" then
      [rxI "(?:execute|cursor\\.execute)\\s*\\(\\s*f?[\x27\x22].*(?:%s|%d|\\\x7b).*[\x27\x22]",
        rxI "(?:execute|cursor\\.execute)\\s*\\(\\s*[\x27\x22].*[\x27\x22]\\s*%\\s*"]
      else []) ++
    (if fam = "php" then
      [rxI "(?:mysql_query|mysqli_query|pg_query)\\s*\\(\\s*[\x27\x22].*\\$\\w+"]
      else []) ++
    (if fam = "ruby" then
      [rxI "(?:execute|find_by_sql)\\s*\\(\\s*[\x27\x22].*#\\\x7b"]
      else []) ++
    (if fam = "java" ∨ fam = "kotlin" then
      [rxI "(?:Statement|executeQuery|executeUpdate)\\s*\\(\\s*[\x27\x22].*\\+\\s*\\w+"]
      else []) ++
    (if fam = "csharp" then
      [rxI "(?:SqlCommand|ExecuteReader|ExecuteNonQuery)\\s*\\([\\s\\S]*?\\+\\s*\\w+"]
      else []) ++
    (if fam = "go" then
      [rxI "(?:Query|Exec)\\s*\\(\\s*(?:fmt\\.Sprintf|\x22.*\x22\\s*\\+)"]
      else [])
  pats.flatMap fun p =>
    matchPatternCands path content lines p .security .critical
      "Potential SQL Injection"
      "String interpolation/concatenation in SQL queries can cause SQL injection."
      (some "Use parameterized queries or prepared statements.")

/-- `_runDangerousFunctions`: eval/exec-like calls per family. -/
def dangerousFunctionCands (path content : String) (lines : List String)
    (lang : LangInfo) : List Candidate :=
  let fam := lang.family
  let funcs : List (JsRegex × String) :=
    (if fam = "js" ∨ fam = "ts" then
      [(rx "\\beval\\s*\\(", "eval()"),
        (rx "\\bnew\\s+Function\\s*\\(", "new Function()")]
      else []) ++
    (if fam = "python" then
      [(rx "\\beval\\s*\\(", "eval()"),
        (rx "\\bexec\\s*\\(", "exec()"),
        (rx "\\b__import__\\s*\\(", "__import__()")]
      else []) ++
    (if fam = "php" then
      [(rx "\\beval\\s*\\(", "eval()"),
        (rx "\\bpreg_replace\\s*\\(\\s*[\x27\x22]/.*/e", "preg_replace /e"),
        (rx "\\bassert\\s*\\(\\s*\\$", "assert() with variable")]
      else []) ++
    (if fam = "ruby" then
      [(rx "\\beval\\s*[( ]", "eval()"),
        (rx "\\bsend\\s*\\(\\s*params", "send() with params")]
      else [])
  funcs.flatMap fun pr =>
    matchPatternCands path content lines pr.1 .security .critical
      ("Dangerous Function: " ++ pr.2)
      (pr.2 ++ " can execute arbitrary code and is a major security risk.")
      (some "Avoid dynamic code execution. Use safe alternatives.")

/-- The `weakCrypto` table. -/
def weakCryptoPatterns : List (JsRegex × String) := [
  (rxI "crypto\\.createHash\\s*\\(\\s*[\x27\x22`]md5[\x27\x22`]", "MD5 (Node)"),
  (rxI "crypto\\.createHash\\s*\\(\\s*[\x27\x22`]sha1[\x27\x22`]", "SHA-1 (Node)"),
  (rxI "hashlib\\.md5", "MD5 (Python)"),
  (rxI "hashlib\\.sha1", "SHA-1 (Python)"),
  (rxI "Digest::MD5", "MD5 (Ruby)"),
  (rxI "Digest::SHA1", "SHA-1 (Ruby)"),
  (rxI "md5\\s*\\(", "MD5 (PHP)"),
  (rxI "sha1\\s*\\(", "SHA-1 (PHP)"),
  (rxI "MessageDigest\\.getInstance\\s*\\(\\s*[\x27\x22`]MD5[\x27\x22`]", "MD5 (Java)"),
  (rxI "MessageDigest\\.getInstance\\s*\\(\\s*[\x27\x22`]SHA-?1[\x27\x22`]", "SHA-1 (Java)"),
  (rxI "md5\\.New\\(\\)", "MD5 (Go)"),
  (rxI "sha1\\.New\\(\\)", "SHA-1 (Go)"),
  (rxI "MD5\\.Create\\(\\)", "MD5 (C#)"),
  (rxI "SHA1\\.Create\\(\\)", "SHA-1 (C#)"),
  (rxI "Md5::compute", "MD5 (Rust)"),
  (rx "CC_MD5\\b", "MD5 (C/Obj-C)"),
  (rx "CC_SHA1\\b", "SHA-1 (C/Obj-C)")]

/-- The hardcoded-IP pattern. -/
def ipPat : JsRegex :=
  rx "[\x27\x22`](\\d\x7b1,3\x7d\\.\\d\x7b1,3\x7d\\.\\d\x7b1,3\x7d\\.\\d\x7b1,3\x7d)[\x27\x22`]"

/-- The hardcoded-IP loop: every quoted dotted quad except
loopback/zero/broadcast (a direct `addIssue` loop, no pattern guard). -/
def hardcodedIpCands (path content : String) (lines : List String) :
    List Candidate :=
  ((rxExecAll ipPat content).filter fun m =>
    let ip := (capStr content.data m 1).getD ""
    !(jsStartsWith ip "127." || jsStartsWith ip "0." ||
      ip == "255.255.255.255" || ip == "0.0.0.0")).map fun m =>
    let ln := lineAt content m.start
    ⟨.security, .info, "Hardcoded IP Address",
      "IP addresses should be externally configured.", path, ln,
      .ctxC (ctxWindow lines ln 1),
      some "Use environment variables or configuration files."⟩

/-- The `deserial` table: pattern, gating family tag, title. -/
def deserialPatterns : List (JsRegex × String × String) := [
  (rx "pickle\\.loads?\\s*\\(", "python", "Unsafe Pickle Deserialization"),
  (rx "yaml\\.load\\s*\\([^)]*\\)\\s*(?!.*Loader)", "python", "Unsafe YAML Load (use safe_load)"),
  (rx "Marshal\\.load", "ruby", "Unsafe Marshal.load"),
  (rx "unserialize\\s*\\(", "php", "Unsafe unserialize()"),
  (rx "ObjectInputStream", "java", "Java Deserialization Risk"),
  (rx "BinaryFormatter\\.Deserialize", "csharp", "Unsafe BinaryFormatter Deserialization"),
  (rx "unsafe\\s*\\\x7b", "rust", "Unsafe Rust Block")]

/-- Deserialization candidates with the source's family gate. -/
def deserialCands (path content : String) (lines : List String)
    (lang : LangInfo) : List Candidate :=
  deserialPatterns.flatMap fun d =>
    if d.2.1 = "all" ∨ lang.family = d.2.1 ∨
        ((lang.family = "js" ∨ lang.family = "ts") ∧ d.2.1 = "js") then
      matchPatternCands path content lines d.1 .security .warning d.2.2
        "Deserialization of untrusted data can lead to remote code execution."
        (some "Validate and sanitize input. Use safe alternatives.")
    else []

/-- The `shellInj` table: pattern and applicable families. -/
def shellInjPatterns : List (JsRegex × List String) := [
  (rx "child_process.*exec\\s*\\(", ["js", "ts"]),
  (rx "os\\.system\\s*\\(", ["python"]),
  (rx "subprocess\\.call\\s*\\(\\s*[^[\\]]", ["python"]),
  (rx "system\\s*\\(\\s*\\$", ["ruby"]),
  (rx "exec\\s*\\(\\s*\\$", ["php"]),
  (rx "Runtime\\.getRuntime\\(\\)\\.exec", ["java", "kotlin"]),
  (rx "os/exec.*Command\\(", ["go"]),
  (rx "std::process::Command::new\\(", ["rust"]),
  (rx "Process\\.Start\\(", ["csharp"])]

/-- The path-traversal-in-file-read-context pattern. -/
def fileReadCtxPat : JsRegex :=
  rx "(?:readFile|open|fopen|File\\.read|os\\.path|path\\.join).*\\.\\./"

/-- `runSecurityAnalysis`: all security candidates, in source call order. -/
def securityCands (path content : String) (lines : List String)
    (lang : LangInfo) : List Candidate :=
  matchAllCands path content lines secretPatterns .security .critical
    (fun t => "Exposed " ++ t)
    (fun t => "A " ++ jsToLower t ++
      " appears to be hardcoded. This is a serious security risk.")
    "Move to environment variables or a secrets manager." ++
  (if sqlFamilies.contains lang.family then
    sqlInjectionCands path content lines lang else []) ++
  dangerousFunctionCands path content lines lang ++
  (if ["js", "ts", "html", "php"].contains lang.family then
    matchPatternCands path content lines
      (rx "\\.innerHTML\\s*=\\s*(?![\x27\x22`]<)")
      .security .warning "Potential XSS via innerHTML"
      "Dynamic content assigned to innerHTML can cause XSS."
      (some "Use textContent or a sanitizer like DOMPurify.")
    else []) ++
  (weakCryptoPatterns.flatMap fun pr =>
    matchPatternCands path content lines pr.1 .security .warning
      ("Weak Crypto: " ++ pr.2)
      (pr.2 ++ " is cryptographically weak. Do not use for security-sensitive operations.")
      (some "Use SHA-256 or stronger (e.g. Argon2 for passwords).")) ++
  hardcodedIpCands path content lines ++
  deserialCands path content lines lang ++
  (shellInjPatterns.flatMap fun pr =>
    if pr.2.contains lang.family then
      matchPatternCands path content lines pr.1 .security .warning
        "Potential Shell Injection"
        "Dynamic shell command execution can lead to command injection."
        (some "Use parameterized APIs or proper input sanitization.")
    else []) ++
  matchPatternCands path content lines fileReadCtxPat .security .warning
    "Potential Path Traversal"
    "Use of ../ in file operations can allow directory traversal attacks."
    (some "Validate and normalize file paths. Use path.resolve() or equivalent.")

end GitAudit

namespace GitAudit

/-! ## Performance analysis (`runPerformanceAnalysis`) -/

/-- The nested-loop pattern. -/
def nestedLoopPat : JsRegex :=
  rx "(?:for|while)\\s*[\\s(][^\x7b\x7d]*\\\x7b[^\x7b\x7d]*(?:for|while)\\s*[\\s(][^\x7b\x7d]*\\\x7b"

/-- The string-concatenation-in-loop pattern. -/
def strConcatPat : JsRegex :=
  rx "(?:for|while)\\s*[\\s(][^\x7b\x7d]*\\\x7b[^\x7d]*(?:\\+=\\s*[\x27\x22`]|[\x27\x22`]\\s*\\+\\s*[\x27\x22`])"

/-- `runPerformanceAnalysis`: all performance candidates, in source order. -/
def performanceCands (path content : String) (lines : List String)
    (lang : LangInfo) : List Candidate :=
  let fam := lang.family
  let mp := fun (r : JsRegex) (sev : Severity) (title descr sugg : String) =>
    matchPatternCands path content lines r .performance sev title descr (some sugg)
  mp nestedLoopPat .info "Nested Loop (O(n²) potential)"
    "Nested loops can cause quadratic complexity on large datasets."
    "Consider hash maps, Sets, or algorithmic optimizations." ++
  (if ["js", "ts", "java", "csharp", "python", "ruby", "php", "go"].contains fam then
    mp strConcatPat .warning "String Concatenation in Loop"
      "Building strings by concatenation in loops is inefficient."
      (if fam = "java" then "Use StringBuilder."
        else if fam = "csharp" then "Use StringBuilder."
        else if fam = "go" then "Use strings.Builder or bytes.Buffer."
        else if fam = "python" then "Collect in a list and join."
        else "Collect parts and join at the end.")
    else []) ++
  (if fam = "js" ∨ fam = "ts" then
    mp (rx "(?:readFileSync|writeFileSync|appendFileSync|existsSync|statSync|readdirSync|mkdirSync|rmdirSync|unlinkSync|copyFileSync)\\b")
      .warning "Synchronous I/O"
      "Synchronous file operations block the event loop."
      "Use async alternatives: fs.promises.*" ++
    mp (rx "\\.(?:filter|map)\\([^)]+\\)\\s*\\.(?:filter|map)\\(")
      .info "Multiple Array Iterations"
      "Chained filter/map iterates the array multiple times."
      "Consider combining into a single reduce pass." ++
    mp (rx "console\\.(log|debug|info)\\s*\\(")
      .info "Console Statement"
      "Console statements should be removed in production."
      "Use a structured logging library with log levels."
    else []) ++
  (if fam = "python" then
    mp (rx "\\bimport\\s+time[\\s\\S]*?time\\.sleep")
      .info "Blocking time.sleep()"
      "time.sleep() blocks the thread. In async code use asyncio.sleep()."
      "Use asyncio.sleep() in async contexts." ++
    mp (rx "for\\s+\\w+\\s+in\\s+range\\s*\\(\\s*len\\s*\\(")
      .info "range(len()) Anti-Pattern"
      "Iterating with range(len(x)) is un-Pythonic."
      "Use enumerate() or direct iteration." ++
    mp (rx "\\+\\s*=\\s*\\[")
      .info "List Concatenation with +="
      "Repeated list concatenation may be slower than extend()."
      "Use list.extend() or list comprehension." ++
    mp (rx "\\bglobal\\s+\\w")
      .warning "Global Variable Usage"
      "Global variables hurt readability and can cause state bugs."
      "Refactor into function parameters or class attributes."
    else []) ++
  (if fam = "java" ∨ fam = "kotlin" then
    mp (rx "new\\s+String\\s*\\(")
      .info "Unnecessary String Constructor"
      "new String() is redundant. Use the literal directly."
      "Use string literals directly." ++
    mp (rx "System\\.out\\.println")
      .info "System.out.println in Code"
      "Use a logging framework (SLF4J/Logback) instead of System.out."
      "Replace with logger.info() / logger.debug()." ++
    mp (rx "\\.size\\(\\)\\s*==\\s*0")
      .info "Use isEmpty() Instead of size()==0"
      ".isEmpty() is more readable and sometimes more efficient."
      "Replace with .isEmpty()."
    else []) ++
  (if fam = "go" then
    mp (rx "fmt\\.Sprintf\\s*\\(\\s*\x22%s\x22")
      .info "fmt.Sprintf for Simple Concat"
      "Using fmt.Sprintf for simple string concatenation is slower than +."
      "Use string concatenation or strings.Builder." ++
    mp (rx "defer\\s+\\w+\\.(?:Close|Unlock)\\(\\)\\s*\\n[\\s\\S]*?(?:for|range)")
      .warning "Defer in Hot Loop"
      "Deferred calls in loops accumulate until the function returns."
      "Call Close/Unlock directly inside the loop body."
    else []) ++
  (if fam = "rust" then
    mp (rx "\\.clone\\(\\)")
      .info "Potential Unnecessary Clone"
      ".clone() copies data. Consider borrowing if ownership is not needed."
      "Prefer references (&T) over cloning where possible." ++
    mp (rx "\\.collect::<Vec<[^>]+>>\\(\\)\\s*\\.iter\\(\\)")
      .info "Collect-then-Iterate"
      "Collecting to a Vec only to iterate again wastes allocation."
      "Chain iterator adaptors before collecting."
    else []) ++
  (if fam = "c" ∨ fam = "cpp" then
    mp (rx "malloc\\s*\\([^)]+\\)(?!.*free)")
      .warning "Potential Memory Leak"
      "malloc without a corresponding free can cause memory leaks."
      "Ensure every malloc has a matching free (or use RAII in C++)." ++
    mp (rx "strcpy\\s*\\(")
      .warning "Unsafe strcpy()"
      "strcpy() does not check buffer size and can cause overflow."
      "Use strncpy() or strlcpy() instead." ++
    mp (rx "sprintf\\s*\\(")
      .warning "Unsafe sprintf()"
      "sprintf() does not check buffer size."
      "Use snprintf() instead."
    else []) ++
  (if fam = "csharp" then
    mp (rx "\\+\\s*=\\s*\x22[^\x22]*\x22\\s*;")
      .info "String Concatenation (use StringBuilder)"
      "Repeated += with strings creates many intermediate allocations."
      "Use StringBuilder for building strings in loops." ++
    mp (rx "Console\\.WriteLine")
      .info "Console.WriteLine in Code"
      "Use ILogger / Serilog instead of Console.WriteLine in production."
      "Replace with structured logging."
    else []) ++
  (if fam = "ruby" then
    mp (rx "\\.each\\s+do[^\x7d]*\\.each\\s+do")
      .info "Nested .each Loops"
      "Nested .each loops may indicate O(n²) complexity."
      "Consider using Hash lookups or Set for membership tests."
    else []) ++
  (if fam = "php" then
    mp (rx "count\\s*\\(\\s*\\$\\w+\\s*\\)\\s*[><=]")
      .info "count() in Loop Condition"
      "count() in loop conditions is called every iteration."
      "Cache the count before the loop." ++
    mp (rx "\\bvar_dump\\s*\\(")
      .info "var_dump() in Code"
      "var_dump() should not be in production code."
      "Remove or use a proper logging library."
    else []) ++
  (if fam = "swift" then
    mp (rx "\\.count\\s*[><=!]+\\s*0")
      .info "Use .isEmpty Instead of .count"
      ".isEmpty is O(1) while .count may be O(n) for some collections."
      "Replace .count == 0 with .isEmpty."
    else []) ++
  (if fam = "dart" then
    mp (rx "print\\s*\\(")
      .info "print() in Code"
      "print() should be replaced with a logging package in production."
      "Use the logging package or debugPrint()."
    else []) ++
  (if fam = "elixir" then
    mp (rx "IO\\.inspect")
      .info "IO.inspect in Code"
      "IO.inspect is for debugging. Remove before production."
      "Use Logger instead of IO.inspect."
    else []) ++
  (if fam = "shell" then
    mp (rx "\\bcat\\s+[^\\|]+\\|\\s*grep\\b")
      .info "Useless Use of cat"
      "cat piped to grep is unnecessary."
      "Use grep <pattern> <file> directly."
    else [])

end GitAudit

namespace GitAudit

/-! ## Quality analysis (`runQualityAnalysis`) -/

/-- The function-head pattern of `_detectLongFunctions`. -/
def longFnHeadPat : JsRegex :=
  rx "(?:function\\s+(\\w+)|(?:const|let|var|val|fun|func|fn|def|void|int|string|bool|auto|pub)\\s+(\\w+)\\s*(?:\\([^)]*\\)|=\\s*(?:async\\s+)?(?:function|\\([^)]*\\)\\s*=>)))"

/-- One long-function candidate. -/
def longFnCand (path name : String) (startLine len : Nat) : Candidate :=
  ⟨.quality, .warning, "Long Function",
    "\x22" ++ name ++ "\x22 is " ++ toString len ++ " lines. Consider splitting it.",
    path, startLine + 1,
    .textC ("function " ++ name ++ "() \x7b ... \x7d // " ++ toString len ++ " lines"),
    some "Extract logical blocks into smaller functions."⟩

/-- `_detectLongFunctions` (brace-counting; depth may go negative, so `Int`). -/
def detectLongFunctions (path : String) : Nat → List String →
    Option (Nat × String) → Int → List Candidate
  | _, [], _, _ => []
  | i, line :: rest, st0, depth0 =>
    let st := match st0 with
      | some fs => some fs
      | none =>
        match rxMatch longFnHeadPat line with
        | some m =>
          some (i, (((capStr line.data m 1).orElse
            fun _ => capStr line.data m 2)).getD "anonymous")
        | none => none
    match st with
    | none => detectLongFunctions path (i + 1) rest none depth0
    | some (fs, name) =>
      let depth := (if st0.isNone then (0 : Int) else depth0) +
        (countChar lbrace line : Int) - (countChar rbrace line : Int)
      if depth ≤ 0 ∧ i > fs then
        (if i - fs + 1 > 50 then [longFnCand path name fs (i - fs + 1)] else []) ++
          detectLongFunctions path (i + 1) rest none depth
      else detectLongFunctions path (i + 1) rest (some (fs, name)) depth

/-- One long-Python-function candidate. -/
def longPyCand (path name : String) (startLine len : Nat) : Candidate :=
  ⟨.quality, .warning, "Long Function",
    "\x22" ++ name ++ "\x22 is " ++ toString len ++ " lines.",
    path, startLine + 1,
    .textC ("def " ++ name ++ "(...): # " ++ toString len ++ " lines"),
    some "Break into smaller functions."⟩

/-- The `def`-head pattern of `_detectLongPythonFunctions`. -/
def pyDefPat : JsRegex := rx "^(\\s*)def\\s+(\\w+)"

/-- `_detectLongPythonFunctions` (indentation tracking). -/
def detectLongPyFunctions (path : String) : Nat → List String →
    Option (Nat × Nat × String) → List Candidate
  | _, [], _ => []
  | i, line :: rest, st =>
    match rxMatch pyDefPat line with
    | some m =>
      let emitted := match st with
        | some (fs, _, name) => if i - fs > 50 then [longPyCand path name fs (i - fs)] else []
        | none => []
      emitted ++ detectLongPyFunctions path (i + 1) rest
        (some (i, ((capStr line.data m 1).getD "").length,
          (capStr line.data m 2).getD ""))
    | none =>
      match st with
      | some (fs, ind, name) =>
        if jsTrim line ≠ "" ∧ searchIdx {} (rx "\\S").re line ≤ (ind : Int) ∧
            ¬ rxTest (rx "^\\s*#") line ∧ ¬ rxTest (rx "^\\s*@") line then
          (if i - fs > 50 then [longPyCand path name fs (i - fs)] else []) ++
            detectLongPyFunctions path (i + 1) rest none
        else detectLongPyFunctions path (i + 1) rest (some (fs, ind, name))
      | none => detectLongPyFunctions path (i + 1) rest none

/-- One long-Ruby-method candidate. -/
def longRbCand (path name : String) (startLine len : Nat) : Candidate :=
  ⟨.quality, .warning, "Long Method",
    "\x22" ++ name ++ "\x22 is " ++ toString len ++ " lines.",
    path, startLine + 1,
    .textC ("def " ++ name ++ " ... end # " ++ toString len ++ " lines"),
    some "Extract into smaller methods."⟩

/-- Ruby block openers counted by `_detectLongRubyFunctions`. -/
def rubyOpenerPat : JsRegex :=
  rx "^(?:def|class|module|do|if|unless|case|begin|while|until|for)\\b"

/-- `_detectLongRubyFunctions` (`def`..`end` counting). -/
def detectLongRubyFunctions (path : String) : Nat → List String →
    Option (Nat × String) → Int → List Candidate
  | _, [], _, _ => []
  | i, rawLine :: rest, st, depth =>
    let line := jsTrim rawLine
    match rxMatch (rx "^def\\s+(\\w+)") line with
    | some m =>
      -- a `def` head always (re)starts tracking with depth 1
      detectLongRubyFunctions path (i + 1) rest
        (some (i, (capStr line.data m 1).getD "")) 1
    | none =>
      match st with
      | none => detectLongRubyFunctions path (i + 1) rest none depth
      | some (fs, name) =>
        let depth := depth + (if rxTest rubyOpenerPat line then 1 else 0) +
          (if line = "end" then -1 else 0)
        if depth = 0 then
          (if i - fs + 1 > 50 then [longRbCand path name fs (i - fs + 1)] else []) ++
            detectLongRubyFunctions path (i + 1) rest none depth
        else detectLongRubyFunctions path (i + 1) rest (some (fs, name)) depth

/-- The TODO/FIXME marker pattern (`gi`). -/
def todoPat : JsRegex :=
  rxI "\\b(TODO|FIXME|HACK|XXX|BUG|OPTIMIZE)\\b[:\\s]*(.*)"

/-- Marker-comment candidates. -/
def todoCands (path content : String) (lines : List String) : List Candidate :=
  (rxExecAll todoPat content).map fun m =>
    let ln := lineAt content m.start
    let tag := jsToUpper ((capStr content.data m 1).getD "")
    ⟨.quality,
      (if tag = "FIXME" ∨ tag = "HACK" ∨ tag = "BUG" then .warning else .info),
      tag ++ " Comment",
      (let d := jsTrim ((capStr content.data m 2).getD "")
        if d = "" then "(no description)" else d),
      path, ln, .ctxC (ctxWindow lines ln 1), none⟩

/-- The magic-number pattern (negative look-behind and look-ahead). -/
def magicNumberPat : JsRegex :=
  rx "(?<![.\\w\x27\x22\\\\])(\\d\x7b2,\x7d)(?![.\\w\x27\x22`])"

/-- The allow-list of common numbers. -/
def commonNumbers : List Nat :=
  [80, 443, 8080, 3000, 5000, 8000, 8443,
    200, 201, 204, 301, 302, 400, 401, 403, 404, 500, 502, 503,
    100, 1000, 1024, 10, 16, 32, 64, 128, 256, 512, 60, 24, 365,
    0xFF, 0xFFFF]

/-- The declaration-context test of `_detectMagicNumbers`. -/
def declPat : JsRegex := rx "(?:const|let|var|final|val)\\s"

/-- The emission loop of `_detectMagicNumbers`: stops after 10 issues. -/
def magicLoop (path content : String) (lines : List String) :
    List MatchRes → Nat → List Candidate
  | [], _ => []
  | m :: ms, count =>
    if count ≥ 10 then []
    else
      let num := parseDigits ((capStr content.data m 1).getD "")
      if commonNumbers.contains num ∨ num ≤ 10 then
        magicLoop path content lines ms count
      else
        let ln := lineAt content m.start
        let line := lines.getD (ln - 1) ""
        let t := jsTrim line
        if jsStartsWith t "//" ∨ jsStartsWith t "#" ∨ jsStartsWith t "*" ∨
            rxTest declPat line then
          magicLoop path content lines ms count
        else
          ⟨.quality, .info, "Magic Number",
            toString num ++ " appears without a named constant.",
            path, ln, .ctxC (ctxWindow lines ln 1),
            some "Extract into a named constant for clarity."⟩ ::
            magicLoop path content lines ms (count + 1)

/-- `_detectMagicNumbers`. -/
def detectMagicNumbers (path content : String) (lines : List String) :
    List Candidate :=
  magicLoop path content lines (rxExecAll magicNumberPat content) 0

/-- The keyword test of `_detectCommentedCode`. -/
def codeKeywordPat : JsRegex :=
  rx "\\b(function|class|if|else|for|while|return|import|export|const|let|var|def|end|do|begin|module|require|include|use|package|pub|fn|impl|struct|enum)\\b"

/-- Strip one leading `//`, `#` or `--` (the `replace` in `_detectCommentedCode`). -/
def stripCommentMarker (s : String) : String :=
  if jsStartsWith s "//" then (s.data.drop 2).asString
  else if jsStartsWith s "#" then (s.data.drop 1).asString
  else if jsStartsWith s "--" then (s.data.drop 2).asString
  else s

/-- The per-line loop of `_detectCommentedCode`: stops after 5 issues. -/
def commentedLoop (path : String) (lines : List String) (lang : LangInfo) :
    Nat → List String → Nat → List Candidate
  | _, [], _ => []
  | i, line :: rest, count =>
    if count ≥ 5 then []
    else
      let trimmed := jsTrim line
      let isComment :=
        (jsStartsWith trimmed "//" ∧ ¬ jsStartsWith trimmed "///") ∨
        (jsStartsWith trimmed "#" ∧ ¬ jsStartsWith trimmed "#!" ∧
          ¬ jsStartsWith trimmed "#include") ∨
        (jsStartsWith trimmed "--" ∧ lang.comment = some "--")
      if isComment then
        let body := jsTrim (stripCommentMarker trimmed)
        if rxTest codeKeywordPat body ∧ body.length > 5 ∧
            ¬ jsStartsWith body "TODO" ∧ ¬ jsStartsWith body "FIXME" ∧
            ¬ jsStartsWith body "NOTE" ∧ ¬ jsStartsWith body "HACK" then
          ⟨.quality, .info, "Commented-out Code",
            "Remove dead code; rely on version control history.",
            path, i + 1, .ctxC (ctxWindow lines (i + 1) 1), none⟩ ::
            commentedLoop path lines lang (i + 1) rest (count + 1)
        else commentedLoop path lines lang (i + 1) rest count
      else commentedLoop path lines lang (i + 1) rest count

/-- `_detectCommentedCode`. -/
def detectCommentedCode (path : String) (lines : List String) (lang : LangInfo) :
    List Candidate :=
  commentedLoop path lines lang 0 lines 0

/-- `_detectDeepNesting`: report once, at the first depth `> 5`. -/
def deepNestingLoop (path : String) (lines : List String) :
    Nat → List String → Int → List Candidate
  | _, [], _ => []
  | i, line :: rest, depth =>
    let depth := depth + (countChar lbrace line : Int) - (countChar rbrace line : Int)
    if depth > 5 then
      [⟨.quality, .warning, "Deep Nesting",
        "Nesting depth " ++ toString depth ++ " at line " ++ toString (i + 1) ++
          ". Hard to read/maintain.",
        path, i + 1, .ctxC (ctxWindow lines (i + 1) 1),
        some "Use early returns, guard clauses, or extract helper functions."⟩]
    else deepNestingLoop path lines (i + 1) rest depth

/-- `_detectDeepNesting`. -/
def detectDeepNesting (path : String) (lines : List String) : List Candidate :=
  deepNestingLoop path lines 0 lines 0

end GitAudit

namespace GitAudit

/-- Long-line candidates (`lines.forEach` block of `runQualityAnalysis`). -/
def longLineCands (path : String) (lines : List String) : List Candidate :=
  (lines.enum.filter fun p =>
    p.2.length > 120 ∧ ¬ jsStartsWith (jsTrim p.2) "//" ∧
      ¬ jsStartsWith (jsTrim p.2) "#" ∧ ¬ (jsIncludes p.2 "http")).map fun p =>
    ⟨.quality, .info, "Line Too Long",
      "Line " ++ toString (p.1 + 1) ++ " is " ++ toString p.2.length ++
        " chars (>120).",
      path, p.1 + 1, .textC (jsTake p.2 80 ++ "..."), none⟩

/-- Families that get the brace-based long-function detector. -/
def braceFunFamilies : List String :=
  ["js", "ts", "java", "kotlin", "csharp", "cpp", "c", "go", "rust",
    "swift", "dart", "php", "scala", "groovy"]

/-- Families that get the magic-number detector. -/
def magicFamilies : List String :=
  ["js", "ts", "java", "kotlin", "csharp", "cpp", "c", "go", "rust",
    "swift", "dart", "php", "scala"]

/-- Families that get the empty-catch-block rule. -/
def catchFamilies : List String :=
  ["js", "ts", "java", "kotlin", "csharp", "cpp", "swift", "dart", "php"]

/-- `runQualityAnalysis`: all quality candidates, in source call order. -/
def qualityCands (path content : String) (lines : List String)
    (lang : LangInfo) : List Candidate :=
  let fam := lang.family
  let mp := fun (r : JsRegex) (t : IType) (sev : Severity)
      (title descr sugg : String) =>
    matchPatternCands path content lines r t sev title descr (some sugg)
  longLineCands path lines ++
  (if braceFunFamilies.contains fam then
    detectLongFunctions path 0 lines none 0 else []) ++
  (if fam = "python" then detectLongPyFunctions path 0 lines none else []) ++
  (if fam = "ruby" then detectLongRubyFunctions path 0 lines none 0 else []) ++
  todoCands path content lines ++
  (if magicFamilies.contains fam then detectMagicNumbers path content lines
    else []) ++
  detectCommentedCode path lines lang ++
  (if catchFamilies.contains fam then
    mp (rx "catch\\s*\\([^)]*\\)\\s*\\\x7b\\s*\\\x7d") .quality .warning
      "Empty Catch Block"
      "Empty catch blocks silently swallow errors."
      "At minimum log the error."
    else []) ++
  (if fam = "python" then
    mp (rx "except(?:\\s+\\w+)?:\\s*\\n\\s+pass\\b") .quality .warning
      "Bare except: pass"
      "Silently passing on exceptions hides bugs."
      "Log the error or handle it explicitly."
    else []) ++
  (if fam = "ruby" then
    mp (rx "rescue\\s*(?:=>?\\s*\\w+)?\\s*\\n\\s*end") .quality .warning
      "Empty rescue Block"
      "Empty rescue blocks hide errors."
      "Log or re-raise the exception."
    else []) ++
  (if lang.comment = some "//" then detectDeepNesting path lines else []) ++
  (if fam = "python" then
    mp (rx "except\\s*:") .quality .warning
      "Bare except Clause"
      "Catching all exceptions makes debugging hard."
      "Catch specific exceptions (e.g., except ValueError:)." ++
    mp (rx "\\bfrom\\s+\\w+\\s+import\\s+\\*") .quality .warning
      "Wildcard Import"
      "from x import * pollutes the namespace."
      "Import specific names."
    else []) ++
  (if fam = "go" then
    mp (rx "\\w+,\\s*_\\s*:?=\\s*\\w+") .quality .info
      "Ignored Error Value"
      "Discarding errors with _ can hide bugs."
      "Check returned errors."
    else []) ++
  (if fam = "rust" then
    mp (rx "\\.unwrap\\(\\)") .quality .warning
      "Use of .unwrap()"
      ".unwrap() panics on None/Err. Use proper error handling."
      "Use ? operator, unwrap_or, or match."
    else []) ++
  (if fam = "shell" then
    (if lines.length > 2 ∧ ¬ jsIncludes content "set -e" then
      [⟨.quality, .warning, "Missing set -e",
        "Script does not use set -e. Errors may go unnoticed.",
        path, 1, .ctxC (ctxWindow lines 1 1),
        some "Add \x22set -euo pipefail\x22 near the top of the script."⟩]
      else []) ++
    mp (rx "\\beval\\s+") .quality .warning
      "eval in Shell Script"
      "eval in shell scripts is dangerous and error-prone."
      "Avoid eval; use arrays or other safe constructs."
    else []) ++
  (if lang.family = "docker" then
    matchPatternCands path content lines
      (rxM "^RUN\\s+apt-get\\s+install(?!.*--no-install-recommends)")
      .quality .info "Missing --no-install-recommends"
      "apt-get install without --no-install-recommends increases image size."
      (some "Add --no-install-recommends to apt-get install.") ++
    (if ¬ (rxTest (rxM "^FROM\\s+\\S+:\\S+") content) ∨
        rxTest (rxM "^FROM\\s+\\S+:latest") content then
      [⟨.quality, .warning, "Untagged or :latest Base Image",
        "Using :latest or no tag makes builds non-reproducible.",
        path, 1, .ctxC (ctxWindow lines 1 1),
        some "Pin the image to a specific version tag."⟩]
      else [])
    else []) ++
  (if lang.family = "hcl" then
    mp (rx "\x22\\*\x22") .quality .warning
      "Overly Permissive IAM"
      "Using \x22*\x22 as a resource in IAM policies is overly permissive."
      "Scope IAM policies to specific resources."
    else []) ++
  (if fam = "solidity" then
    mp (rx "tx\\.origin") .security .critical
      "Use of tx.origin"
      "tx.origin for authorization is vulnerable to phishing attacks."
      "Use msg.sender instead of tx.origin." ++
    mp (rx "\\.call\\\x7bvalue:") .security .warning
      "Low-level .call\x7bvalue:\x7d"
      "Low-level calls can be risky. Check for reentrancy."
      "Use the checks-effects-interactions pattern and/or ReentrancyGuard."
    else [])

end GitAudit

namespace GitAudit

/-! ## Unused-code analysis (`runUnusedCodeAnalysis`)

The import/variable helpers build `new RegExp('\\b' + name + '\\b', 'g')`
from names captured out of the file text; when that pattern is invalid
JS throws a `SyntaxError`, modelled as `some regexErrorMsg`. -/

/-- The error message standing for a `SyntaxError` from `new RegExp`. -/
def regexErrorMsg : String := "Invalid regular expression"

/-- Model of `new RegExp('\\b' + name + '\\b', 'g')`. -/
def wordRegexOf (name : String) : Option JsRegex :=
  (parsePattern ("\\b" ++ name ++ "\\b")).map fun r => ⟨r, {}⟩

/-- Insertion-ordered `Map.set`. -/
def mapSet (m : List (String × Nat)) (k : String) (v : Nat) :
    List (String × Nat) :=
  match m with
  | [] => [(k, v)]
  | (k0, v0) :: rest =>
    if k0 = k then (k0, v) :: rest else (k0, v0) :: mapSet rest k v

/-- The declaration pattern of `_unusedVarsJS`. -/
def jsDefPat : JsRegex := rx "(?:const|let|var)\\s+(\\w+)\\s*="

/-- The `defs` map of `_unusedVarsJS`. -/
def unusedVarsDefs (content : String) : List (String × Nat) :=
  (rxExecAll jsDefPat content).foldl
    (fun m mr => mapSet m ((capStr content.data mr 1).getD "") (lineAt content mr.start))
    []

/-- The emission loop of `_unusedVarsJS`. -/
def unusedVarsLoop (path content : String) (lines : List String) :
    List (String × Nat) → List Candidate × Option String
  | [] => ([], none)
  | (name, line) :: rest =>
    match wordRegexOf name with
    | none => ([], some regexErrorMsg)
    | some re =>
      let occN := rxCount re content
      let here :=
        if occN ≤ 1 ∧ name ≠ "_" ∧ ¬ jsStartsWith name "_" then
          [⟨.unused, .warning, "Potentially Unused Variable",
            "\x22" ++ name ++ "\x22 is defined but not used elsewhere in this file.",
            path, line, .ctxC (ctxWindow lines line 1),
            some "Remove or prefix with _ if intentional."⟩]
        else []
      let r := unusedVarsLoop path content lines rest
      (here ++ r.1, r.2)

/-- `_unusedVarsJS`. -/
def unusedVarsJS (path content : String) (lines : List String) :
    List Candidate × Option String :=
  unusedVarsLoop path content lines (unusedVarsDefs content)

/-- The import pattern of `_unusedImportsJS`. -/
def jsImportPat : JsRegex :=
  rx "import\\s+(?:\\\x7b([^\x7d]+)\\\x7d|(\\w+))\\s+from"

/-- The `as`-separator. -/
def asSepPat : JsRegex := rx "\\s+as\\s+"

/-- `s.trim().split(/\s+as\s+/).pop().trim()`. -/
def lastAsPart (s : String) : String :=
  jsTrim (((splitRe {} asSepPat.re (jsTrim s)).getLast?).getD "")

/-- The names of one `import` match. -/
def importNamesOf (cs : List Char) (m : MatchRes) : List String :=
  let raw := (((capStr cs m 1).orElse fun _ => capStr cs m 2)).getD ""
  (splitOnChar ',' raw).map lastAsPart

/-- Per-name loop of `_unusedImportsJS` at import line `ln`. -/
def unusedImportsJsNames (path content : String) (lines : List String)
    (ln : Nat) : List String → List Candidate × Option String
  | [] => ([], none)
  | name :: rest =>
    if name = "" then unusedImportsJsNames path content lines ln rest
    else
      match wordRegexOf name with
      | none => ([], some regexErrorMsg)
      | some re =>
        let uses := rxCount re content
        let here :=
          if uses ≤ 1 then
            [⟨.unused, .warning, "Unused Import",
              "\x22" ++ name ++ "\x22 is imported but never used.",
              path, ln, .ctxC (ctxWindow lines ln 1),
              some "Remove unused imports."⟩]
          else []
        let r := unusedImportsJsNames path content lines ln rest
        (here ++ r.1, r.2)

/-- Per-match loop of `_unusedImportsJS`. -/
def unusedImportsJsLoop (path content : String) (lines : List String) :
    List MatchRes → List Candidate × Option String
  | [] => ([], none)
  | m :: ms =>
    let ln := lineAt content m.start
    let r := unusedImportsJsNames path content lines ln (importNamesOf content.data m)
    match r.2 with
    | some e => (r.1, some e)
    | none =>
      let r2 := unusedImportsJsLoop path content lines ms
      (r.1 ++ r2.1, r2.2)

/-- `_unusedImportsJS`. -/
def unusedImportsJS (path content : String) (lines : List String) :
    List Candidate × Option String :=
  unusedImportsJsLoop path content lines (rxExecAll jsImportPat content)

/-- The import pattern of `_unusedImportsPython` (`gm`). -/
def pyImportPat : JsRegex := rxM "^(?:from\\s+\\S+\\s+)?import\\s+(.+)"

/-- Per-name loop of `_unusedImportsPython`. -/
def unusedImportsPyNames (path content : String) (lines : List String)
    (ln : Nat) : List String → List Candidate × Option String
  | [] => ([], none)
  | name :: rest =>
    if name = "" ∨ name = "*" then unusedImportsPyNames path content lines ln rest
    else
      match wordRegexOf name with
      | none => ([], some regexErrorMsg)
      | some re =>
        let uses := rxCount re content
        let here :=
          if uses ≤ 1 then
            [⟨.unused, .warning, "Unused Import",
              "\x22" ++ name ++ "\x22 is imported but not used.",
              path, ln, .ctxC (ctxWindow lines ln 1),
              some "Remove unused imports."⟩]
          else []
        let r := unusedImportsPyNames path content lines ln rest
        (here ++ r.1, r.2)

/-- Per-match loop of `_unusedImportsPython`. -/
def unusedImportsPyLoop (path content : String) (lines : List String) :
    List MatchRes → List Candidate × Option String
  | [] => ([], none)
  | m :: ms =>
    let ln := lineAt content m.start
    let names := (splitOnChar ',' ((capStr content.data m 1).getD "")).map lastAsPart
    let r := unusedImportsPyNames path content lines ln names
    match r.2 with
    | some e => (r.1, some e)
    | none =>
      let r2 := unusedImportsPyLoop path content lines ms
      (r.1 ++ r2.1, r2.2)

/-- `_unusedImportsPython`. -/
def unusedImportsPython (path content : String) (lines : List String) :
    List Candidate × Option String :=
  unusedImportsPyLoop path content lines (rxExecAll pyImportPat content)

/-- The import pattern of `_unusedImportsJava` (`gm`). -/
def javaImportPat : JsRegex := rxM "^import\\s+(?:static\\s+)?([^;]+);"

/-- Per-match loop of `_unusedImportsJava`. -/
def unusedImportsJavaLoop (path content : String) (lines : List String) :
    List MatchRes → List Candidate × Option String
  | [] => ([], none)
  | m :: ms =>
    let fullImport := jsTrim ((capStr content.data m 1).getD "")
    let simpleName := ((splitOnChar '.' fullImport).getLast?).getD ""
    if simpleName = "*" then unusedImportsJavaLoop path content lines ms
    else
      match wordRegexOf simpleName with
      | none => ([], some regexErrorMsg)
      | some re =>
        let uses := rxCount re content
        let ln := lineAt content m.start
        let here :=
          if uses ≤ 1 then
            [⟨.unused, .warning, "Unused Import",
              "\x22" ++ fullImport ++ "\x22 appears unused.",
              path, ln, .ctxC (ctxWindow lines ln 1),
              some "Remove unused imports."⟩]
          else []
        let r := unusedImportsJavaLoop path content lines ms
        (here ++ r.1, r.2)

/-- `_unusedImportsJava`. -/
def unusedImportsJava (path content : String) (lines : List String) :
    List Candidate × Option String :=
  unusedImportsJavaLoop path content lines (rxExecAll javaImportPat content)

/-- The import-block pattern of `_unusedImportsGo`. -/
def goImportPat : JsRegex := rx "import\\s*\\(\\s*([\\s\\S]*?)\\)"

/-- The per-line pattern inside a Go import block. -/
def goImportLinePat : JsRegex := rx "(?:(\\w+)\\s+)?\x22([^\x22]+)\x22"

/-- Per-import-line loop of `_unusedImportsGo` (block starts at `ln`). -/
def unusedImportsGoLines (path content : String) (lines : List String)
    (ln : Nat) : List String → List Candidate × Option String
  | [] => ([], none)
  | il :: rest =>
    match rxMatch goImportLinePat (jsTrim il) with
    | none => unusedImportsGoLines path content lines ln rest
    | some im =>
      let ilt := (jsTrim il).data
      let impPath := (capStr ilt im 2).getD ""
      let aliasName := ((capStr ilt im 1).getD
        (((splitOnChar '/' impPath).getLast?).getD ""))
      if aliasName = "_" then unusedImportsGoLines path content lines ln rest
      else
        match wordRegexOf aliasName with
        | none => ([], some regexErrorMsg)
        | some re =>
          let uses := rxCount re content
          let here :=
            if uses ≤ 1 then
              [⟨.unused, .warning, "Unused Import",
                "\x22" ++ impPath ++ "\x22 appears unused.",
                path, ln, .ctxC (ctxWindow lines ln 1),
                some "Remove unused imports (Go compiler enforces this)."⟩]
            else []
          let r := unusedImportsGoLines path content lines ln rest
          (here ++ r.1, r.2)

/-- Per-block loop of `_unusedImportsGo`. -/
def unusedImportsGoLoop (path content : String) (lines : List String) :
    List MatchRes → List Candidate × Option String
  | [] => ([], none)
  | m :: ms =>
    let block := (capStr content.data m 1).getD ""
    let ln := lineAt content m.start
    let r := unusedImportsGoLines path content lines ln (splitOnChar '\n' block)
    match r.2 with
    | some e => (r.1, some e)
    | none =>
      let r2 := unusedImportsGoLoop path content lines ms
      (r.1 ++ r2.1, r2.2)

/-- `_unusedImportsGo`. -/
def unusedImportsGo (path content : String) (lines : List String) :
    List Candidate × Option String :=
  unusedImportsGoLoop path content lines (rxExecAll goImportPat content)

/-- The `use` pattern of `_unusedImportsRust`. -/
def rustUsePat : JsRegex := rx "use\\s+([^;]+);"

/-- Per-match loop of `_unusedImportsRust`. -/
def unusedImportsRustLoop (path content : String) (lines : List String) :
    List MatchRes → List Candidate × Option String
  | [] => ([], none)
  | m :: ms =>
    let full := jsTrim ((capStr content.data m 1).getD "")
    let lastSeg := ((splitOnStr "::" full).getLast?).getD ""
    let simpleName :=
      jsTrim ((lastSeg.data.filter fun c => c ≠ lbrace ∧ c ≠ rbrace).asString)
    if simpleName = "" ∨ simpleName = "*" ∨ simpleName = "self" then
      unusedImportsRustLoop path content lines ms
    else
      match wordRegexOf simpleName with
      | none => ([], some regexErrorMsg)
      | some re =>
        let uses := rxCount re content
        let ln := lineAt content m.start
        let here :=
          if uses ≤ 1 then
            [⟨.unused, .warning, "Unused Import",
              "\x22" ++ full ++ "\x22 appears unused.",
              path, ln, .ctxC (ctxWindow lines ln 1),
              some "Remove unused use statements."⟩]
          else []
        let r := unusedImportsRustLoop path content lines ms
        (here ++ r.1, r.2)

/-- `_unusedImportsRust`. -/
def unusedImportsRust (path content : String) (lines : List String) :
    List Candidate × Option String :=
  unusedImportsRustLoop path content lines (rxExecAll rustUsePat content)

/-- The `using` pattern of `_unusedUsingsCSharp` (`gm`). -/
def csUsingPat : JsRegex := rxM "^using\\s+([\\w.]+);"

/-- Per-match loop of `_unusedUsingsCSharp`. -/
def unusedUsingsCSharpLoop (path content : String) (lines : List String) :
    List MatchRes → List Candidate × Option String
  | [] => ([], none)
  | m :: ms =>
    let ns := jsTrim ((capStr content.data m 1).getD "")
    let simpleName := ((splitOnChar '.' ns).getLast?).getD ""
    match wordRegexOf simpleName with
    | none => ([], some regexErrorMsg)
    | some re =>
      let uses := rxCount re content
      let ln := lineAt content m.start
      let here :=
        if uses ≤ 1 ∧ ¬ jsStartsWith ns "System" then
          [⟨.unused, .info, "Potentially Unused using",
            "\x22using " ++ ns ++ "\x22 may be unused.",
            path, ln, .ctxC (ctxWindow lines ln 1),
            some "Remove unnecessary using directives."⟩]
        else []
      let r := unusedUsingsCSharpLoop path content lines ms
      (here ++ r.1, r.2)

/-- `_unusedUsingsCSharp`. -/
def unusedUsingsCSharp (path content : String) (lines : List String) :
    List Candidate × Option String :=
  unusedUsingsCSharpLoop path content lines (rxExecAll csUsingPat content)

/-- The scan loop of `_duplicateLines`. -/
def dupLoop (path : String) (lines : List String) :
    Nat → Nat → List (String × Nat) → List Candidate
  | 0, _, _ => []
  | f + 1, i, seen =>
    if i + 3 ≥ lines.length then []
    else
      let block := String.intercalate "|" (((lines.drop i).take 4).map jsTrim)
      if (block.data.filter fun c => ¬ jsIsSpace c).length < 20 then
        dupLoop path lines f (i + 1) seen
      else
        match seen.find? (fun p => p.1 = block) with
        | some p =>
          [⟨.unused, .info, "Duplicate Code Block",
            "Lines " ++ toString (i + 1) ++ "-" ++ toString (i + 4) ++
              " duplicate lines " ++ toString (p.2 + 1) ++ "-" ++
              toString (p.2 + 4) ++ ".",
            path, i + 1, .ctxC (ctxWindow lines (i + 1) 1),
            some "Extract duplicated logic into a shared function."⟩]
        | none => dupLoop path lines f (i + 1) (seen ++ [(block, i)])

/-- `_duplicateLines`: nothing under 10 lines, else first repeated block. -/
def duplicateLineCands (path : String) (lines : List String) : List Candidate :=
  if lines.length < 10 then []
  else dupLoop path lines (lines.length + 1) 0 []

/-- Sequence two fallible candidate producers (second skipped on error). -/
def seqCands (a : List Candidate × Option String)
    (b : Unit → List Candidate × Option String) :
    List Candidate × Option String :=
  match a with
  | (cs, some e) => (cs, some e)
  | (cs, none) =>
    let r := b ()
    (cs ++ r.1, r.2)

/-- `runUnusedCodeAnalysis`: all dead-code candidates plus the first
thrown error, in source call order. -/
def unusedCands (path content : String) (lines : List String)
    (lang : LangInfo) : List Candidate × Option String :=
  let fam := lang.family
  seqCands
    (if fam = "js" ∨ fam = "ts" then unusedVarsJS path content lines
      else ([], none))
    fun _ => seqCands
      (if fam = "js" ∨ fam = "ts" then unusedImportsJS path content lines
        else ([], none))
      fun _ => seqCands
        (if fam = "python" then unusedImportsPython path content lines
          else ([], none))
        fun _ => seqCands
          (if fam = "java" ∨ fam = "kotlin" then
            unusedImportsJava path content lines else ([], none))
          fun _ => seqCands
            (if fam = "go" then unusedImportsGo path content lines
              else ([], none))
            fun _ => seqCands
              (if fam = "rust" then unusedImportsRust path content lines
                else ([], none))
              fun _ => seqCands
                (if fam = "csharp" then unusedUsingsCSharp path content lines
                  else ([], none))
                fun _ => (duplicateLineCands path lines, none)

end GitAudit

namespace GitAudit

/-! ## IEEE-754 binary64 model

The `overall` score is computed by JS in float64 arithmetic
(`security*0.35 + ...`), where each decimal literal and each operation
result is rounded to the nearest binary64 value (ties to even).  The
category scores stay in `[40, 100]`, so every intermediate value lies in
the normal range and this model is exact there. -/

/-- Fuel-recursive `⌊log₂⌋` helper. -/
def natLog2Fuel : Nat → Nat → Nat
  | 0, _ => 0
  | f + 1, n => if n ≥ 2 then natLog2Fuel f (n / 2) + 1 else 0

/-- `⌊log₂ n⌋` (0 for `n = 0`). -/
def natLog2 (n : Nat) : Nat := natLog2Fuel n n

/-- `2^i` as a rational, for an integer exponent. -/
def pow2Q (i : Int) : ℚ :=
  if 0 ≤ i then ((2 ^ i.toNat : Nat) : ℚ) else 1 / ((2 ^ (-i).toNat : Nat) : ℚ)

/-- `⌊log₂ q⌋` for a positive rational (first guess from the numerator
and denominator logarithms, then adjusted). -/
def floorLog2Q (q : ℚ) : Int :=
  let e0 : Int := (natLog2 q.num.toNat : Int) - (natLog2 q.den : Int)
  if pow2Q (e0 + 1) ≤ q then e0 + 1
  else if pow2Q e0 ≤ q then e0
  else e0 - 1

/-- Round a rational to the nearest integer, ties to even. -/
def roundHalfEven (s : ℚ) : Int :=
  let f := ⌊s⌋
  let r := s - (f : ℚ)
  if r < 1 / 2 then f
  else if r > 1 / 2 then f + 1
  else if f % 2 = 0 then f else f + 1

/-- Round a nonnegative rational to the nearest binary64 value
(53-bit significand, round to nearest, ties to even): the rounding JS
applies to every decimal literal and every arithmetic result. -/
def fl64 (q : ℚ) : ℚ :=
  if q ≤ 0 then 0
  else
    let k := floorLog2Q q
    let m := roundHalfEven (q * pow2Q (52 - k))
    (m : ℚ) * pow2Q (k - 52)

/-- The binary64 value of the literal `0.35`. -/
def d035 : ℚ := fl64 (35 / 100)

/-- The binary64 value of the literal `0.25` (exactly representable). -/
def d025 : ℚ := fl64 (25 / 100)

/-- The binary64 value of the literal `0.15`. -/
def d015 : ℚ := fl64 (15 / 100)

/-! ## Scoring and report (`calculateScores`, `generateReport`) -/

/-- Penalty of one issue by severity (critical 15, warning 5, info 1). -/
def sevPenalty : Severity → Int
  | .critical => 15
  | .warning => 5
  | .info => 1

/-- The penalty accumulation loop of `calc`. -/
def penaltyOf (issues : List Issue) : Int :=
  issues.foldl (fun p i => p + sevPenalty i.data.severity) 0

/-- `calc(issues, maxPenalty)`. -/
def calcScore (issues : List Issue) (maxPenalty : Int) : Int :=
  max 0 (100 - min (penaltyOf issues) maxPenalty)

/-- JS `Math.round`: the nearest integer, half toward `+∞`, decided on
the exact value of the argument (a float64 result is an exact rational). -/
def jsRound (q : ℚ) : Int := ⌊q + 1 / 2⌋

/-- `Math.round(sec*0.35 + perf*0.25 + qual*0.25 + clean*0.15)` as JS
evaluates it: left-associated float64 products and sums, each rounded to
binary64, then `Math.round` of the resulting double. -/
def jsOverall (sec perf qual clean : Int) : Int :=
  jsRound (fl64 (fl64 (fl64 ((fl64 ((sec : ℚ) * d035)) + fl64 ((perf : ℚ) * d025)) +
    fl64 ((qual : ℚ) * d025)) + fl64 ((clean : ℚ) * d015)))

/-- The issues of one category (the `byType` bucket; every engine issue
carries one of the four types, so the `|| byType.quality` fallback for
unknown type strings never fires). -/
def bucketOf (issues : List Issue) (t : IType) : List Issue :=
  issues.filter fun i => i.data.itype == t

/-- `calculateScores()` as a function of the issue list. -/
def calculateScores (issues : List Issue) : Scores :=
  let sec := calcScore (bucketOf issues .security) 60
  let perf := calcScore (bucketOf issues .performance) 40
  let qual := calcScore (bucketOf issues .quality) 40
  let clean := calcScore (bucketOf issues .unused) 30
  { security := sec
    performance := perf
    quality := qual
    cleanliness := clean
    overall := jsOverall sec perf qual clean }

/-- The `statistics` object of a report (`...this.statistics` plus the
derived counts). -/
structure ReportStatistics where
  totalFiles : Nat
  totalLines : Nat
  analyzedFiles : Nat
  analyzedLines : Nat
  languages : List (String × Nat)
  totalIssues : Nat
  criticalIssues : Nat
  warnings : Nat
  suggestions : Nat
  deriving DecidableEq

/-- The report value. -/
structure Report where
  repository : String
  timestamp : String
  statistics : ReportStatistics
  scores : Scores
  issues : List Issue
  files : List FileRecord
  summary : String
  deriving DecidableEq

/-- `_summary()` over given statistics, issues and scores. -/
def summaryOf (stats : Statistics) (issues : List Issue) (scores : Scores) :
    String :=
  let crit := (issues.filter fun i => i.data.severity == Severity.critical).length
  let warn := (issues.filter fun i => i.data.severity == Severity.warning).length
  let s := "Analyzed " ++ toString stats.analyzedFiles ++ " files (" ++
    toLocaleString stats.analyzedLines ++ " lines). "
  let s := if crit ≠ 0 then
      s ++ toString crit ++ " critical issue" ++ (if crit > 1 then "s" else "") ++
        " need immediate attention. "
    else s
  let s := if warn ≠ 0 then
      s ++ toString warn ++ " warning" ++ (if warn > 1 then "s" else "") ++
        " to review. "
    else s
  if scores.overall ≥ 80 then s ++ "Overall the codebase is in good shape."
  else if scores.overall ≥ 60 then s ++ "Room for improvement."
  else s ++ "Significant attention needed."

/-- `generateReport(repoName)`: recomputes the scores (the one field it
mutates), then assembles the report.  The wall-clock reading that JS
takes with `new Date().toISOString()` is an explicit input. -/
def generateReport (s : EngineState) (repoName timestamp : String) :
    Report × EngineState :=
  let scores := calculateScores s.issues
  let s' := { s with scores := scores }
  (⟨repoName, timestamp,
    ⟨s.statistics.totalFiles, s.statistics.totalLines,
      s.statistics.analyzedFiles, s.statistics.analyzedLines,
      s.statistics.languages,
      s.issues.length,
      (s.issues.filter fun i => i.data.severity == Severity.critical).length,
      (s.issues.filter fun i => i.data.severity == Severity.warning).length,
      (s.issues.filter fun i => i.data.severity == Severity.info).length⟩,
    scores, s.issues, s.files,
    summaryOf s.statistics s.issues scores⟩, s')

/-! ## `analyzeFile` -/

/-- `languages[name] = (languages[name] || 0) + 1` (insertion order kept). -/
def bumpLang (langs : List (String × Nat)) (name : String) :
    List (String × Nat) :=
  match langs with
  | [] => [(name, 1)]
  | (k, v) :: rest =>
    if k = name then (k, v + 1) :: rest else (k, v) :: bumpLang rest name

/-- `analyzeFile(relativePath, content)`.  Returns the successor state
and `some message` when the JS code would throw (the state keeps every
mutation made before the throw, as in JS). -/
def analyzeFile (s : EngineState) (relativePath content : String) :
    EngineState × Option String :=
  let lang := getLanguage relativePath
  let lines := splitOnChar '\n' content
  let stats :=
    { s.statistics with
      analyzedFiles := s.statistics.analyzedFiles + 1
      analyzedLines := s.statistics.analyzedLines + lines.length
      languages := bumpLang s.statistics.languages lang.name }
  let files := s.files ++
    [⟨relativePath, lang.name, lang.family, lines.length, content.length⟩]
  let u := unusedCands relativePath content lines lang
  let cands :=
    securityCands relativePath content lines lang ++
    performanceCands relativePath content lines lang ++
    qualityCands relativePath content lines lang ++
    u.1
  ({ s with
      statistics := stats
      files := files
      issues := cands.foldl addIssue s.issues }, u.2)

/-- The candidates `analyzeFile` feeds to `addIssue`, in call order. -/
def fileCands (relativePath content : String) : List Candidate :=
  let lang := getLanguage relativePath
  let lines := splitOnChar '\n' content
  securityCands relativePath content lines lang ++
  performanceCands relativePath content lines lang ++
  qualityCands relativePath content lines lang ++
  (unusedCands relativePath content lines lang).1

/-! ## Drivers (`local-scanner.js` `scan`, `bin/gitaudit.js`) -/

/-- A directory entry reaching the scanner's per-file checks: its
relative path, `statSync` result (`none` models a throwing stat), and
`readFileSync` result (`none` models a read error).  `getLanguage` and
`isBinaryFile` inspect only the basename, which `walk` keeps identical
between the absolute and the relative path. -/
structure ScanEntry where
  relPath : String
  size? : Option Nat
  content? : Option String
  deriving DecidableEq

/-- `CONFIG.AUDIT.MAX_FILE_SIZE`. -/
def maxFileSize : Nat := 1024 * 1024

/-- The scanner's per-file acceptance checks, in source order:
not binary, not family `"other"`, stat succeeded, not oversized. -/
def scanAccepts (e : ScanEntry) : Bool :=
  !(isBinaryFile e.relPath) &&
  !((getLanguage e.relPath).family == "other") &&
  (match e.size? with
    | none => false
    | some n => decide (n ≤ maxFileSize))

/-- `scan(rootDir).files`: the entries that survive the checks. -/
def localScan (entries : List ScanEntry) : List ScanEntry :=
  entries.filter scanAccepts

/-- One Git tree item of the remote (GitHub) driver. -/
structure TreeBlob where
  path : String
  btype : String
  size? : Option Nat
  deriving DecidableEq

/-- The remote driver's blob filter (`bin/gitaudit.js` `runRemote`). -/
def remoteBlobFilter (items : List TreeBlob) : List TreeBlob :=
  items.filter fun item =>
    item.btype == "blob" &&
    !((getLanguage item.path).family == "other") &&
    decide ((item.size?.getD 0) ≤ maxFileSize)

/-- `runLocal`: fresh engine, `totalFiles` set to the scan result count,
then `analyzeFile` per readable file (analysis throws swallowed, the
partially mutated state kept — the driver's `try/catch`). -/
def runLocalEngine (entries : List ScanEntry) : EngineState :=
  let files := localScan entries
  let st0 :=
    { resetState with
      statistics := { resetState.statistics with totalFiles := files.length } }
  files.foldl
    (fun st e =>
      match e.content? with
      | none => st
      | some c => (analyzeFile st e.relPath c).1)
    st0

/-- The claim C5 protocol: `reset`, then `analyzeFile` on each pair in
order (thrown analysis errors leave their partial state, as in JS). -/
def runProtocol (s : EngineState) (inputs : List (String × String)) :
    EngineState :=
  inputs.foldl (fun st pc => (analyzeFile st pc.1 pc.2).1) (resetEngine s)

end GitAudit

namespace GitAudit

/-! ## Theorems about the claims -/

/-! ### Definitions supporting the claim statements -/

/-- The specification's category penalty: the sum over that category's
issues of 15 per critical, 5 per warning, and 1 per info issue. -/
def specCategoryPenalty (issues : List Issue) (t : IType) : Int :=
  ((issues.filter fun i => i.data.itype = t).map fun i =>
    match i.data.severity with
    | .critical => 15
    | .warning => 5
    | .info => 1).sum

/-- The specification's category score: `max(0, 100 − min(penalty, ceiling))`. -/
def specCategoryScore (issues : List Issue) (t : IType) (ceiling : Int) : Int :=
  max 0 (100 - min (specCategoryPenalty issues t) ceiling)

/-- A sample security issue. -/
def issueEx1 : Issue := ⟨1, ⟨.security, .critical, "t1", "d", "f", 1, .textC "", none⟩⟩

/-- A sample quality issue. -/
def issueEx2 : Issue := ⟨2, ⟨.quality, .info, "t2", "d", "f", 2, .textC "", none⟩⟩

/-- An issue of the given category and severity (for score examples). -/
def mkSevIssue (t : IType) (sev : Severity) (n : Nat) : Issue :=
  ⟨n, ⟨t, sev, toString n, "d", "f", n, .textC "", none⟩⟩

/-- A list with 3 critical + 9 info security issues (penalty 54, score
46), 8 warning performance and 8 warning quality issues (penalty 40,
score 60 each), and 1 critical + 1 warning + 4 info dead-code issues
(penalty 24, score 76): a reachable score quadruple where float64 and
exact rounding differ. -/
def tieIssues : List Issue :=
  ((List.range 3).map fun n => mkSevIssue .security .critical n) ++
  ((List.range 9).map fun n => mkSevIssue .security .info (n + 10)) ++
  ((List.range 8).map fun n => mkSevIssue .performance .warning (n + 20)) ++
  ((List.range 8).map fun n => mkSevIssue .quality .warning (n + 30)) ++
  [mkSevIssue .unused .critical 40, mkSevIssue .unused .warning 41] ++
  ((List.range 4).map fun n => mkSevIssue .unused .info (n + 42))

/-- The deduplication key. -/
def issueKey (c : Candidate) : String × Nat × String := (c.file, c.line, c.title)

/-- No two issues share a `(file, line, title)` key. -/
def keysDistinct (issues : List Issue) : Prop :=
  issues.Pairwise fun a b => issueKey a.data ≠ issueKey b.data

/-- Issue ids are `1, 2, …, n` in list order. -/
def idsSequential (issues : List Issue) : Prop :=
  issues.map Issue.id = List.range' 1 issues.length

/-- Engine states reachable by `reset` / `analyzeFile` / `generateReport`
(for `analyzeFile` the state component is kept whether or not the call
threw). -/
inductive Reachable : EngineState → Prop
  | start : Reachable resetState
  | reset (s : EngineState) : Reachable s → Reachable (resetEngine s)
  | analyze (s : EngineState) (p c : String) :
      Reachable s → Reachable (analyzeFile s p c).1
  | report (s : EngineState) (label t : String) :
      Reachable s → Reachable (generateReport s label t).2

/-- A sample candidate. -/
def candEx : Candidate := ⟨.security, .critical, "t", "d", "f", 1, .textC "", none⟩

/-- A critical issue of the given category (for score examples). -/
def mkCritIssue (t : IType) (n : Nat) : Issue :=
  ⟨n, ⟨t, .critical, toString n, "d", "f", n, .textC "", none⟩⟩

/-- 5 critical security, 3 performance, 3 quality and 3 dead-code
issues: every category's penalty exceeds its ceiling. -/
def overCeilingIssues : List Issue :=
  ((List.range 5).map fun n => mkCritIssue .security n) ++
  ((List.range 3).map fun n => mkCritIssue .performance (n + 10)) ++
  ((List.range 3).map fun n => mkCritIssue .quality (n + 20)) ++
  ((List.range 3).map fun n => mkCritIssue .unused (n + 30))

/-- The specification's description of the window: entries numbered
consecutively from `max(1, L−k)` to `min(n, L+k)`, each carrying the
line of that 1-based number, highlighted exactly at `L`. -/
def specCtxWindow (lines : List String) (L k : Nat) : List CtxLine :=
  (List.range' (max 1 (L - k)) (min lines.length (L + k) + 1 - max 1 (L - k))).map
    fun j => ⟨j, lines.getD (j - 1) "", j == L⟩

/-- Eleven eligible magic numbers, one per line. -/
def magicElevenContent : String :=
  "a(11)\na(12)\na(13)\na(14)\na(15)\na(17)\na(18)\na(19)\na(21)\na(22)\na(23)"

/-- A `.js` file whose import name `(` makes
`new RegExp('\\b(\\b', 'g')` throw a `SyntaxError`. -/
def badImportContent : String := "import \x7b(\x7d from"

/-- The only failure a candidate producer may report is the
invalid-dynamic-regex error. -/
def throwsOnlyRegexError (r : List Candidate × Option String) : Prop :=
  r.2 = none ∨ r.2 = some regexErrorMsg

/-- The specification's scenario-A content: `sk-` followed by only 46
alphanumeric characters. -/
def scenarioAContent : String :=
  "const apiKey = \x22sk-aaaaaaaaaaaaaaaaaaaaaaaaaaaaaaaaaaaaaaaaaaaaaa\x22;"

/-- Scenario-A content with 48 characters after `sk-`, the length the
OpenAI-key pattern `sk-[a-zA-Z0-9]\x7b48\x7d` actually requires. -/
def scenarioA48Content : String :=
  "const apiKey = \x22sk-aaaaaaaaaaaaaaaaaaaaaaaaaaaaaaaaaaaaaaaaaaaaaaaa\x22;"

set_option maxRecDepth 100000

/-- The run-state invariant C4 cares about: every file record has a
non-`"other"` family and a non-`"Other"` language, `analyzedFiles`
counts exactly the records, and the histogram has no `"Other"` key. -/
def noOtherInv (st : EngineState) : Prop :=
  (∀ r ∈ st.files, r.family ≠ "other" ∧ r.language ≠ "Other") ∧
  st.statistics.analyzedFiles = st.files.length ∧
  (∀ kv ∈ st.statistics.languages, kv.1 ≠ "Other")

/-- A scan entry with an unrecognized extension, and one with `.js`. -/
def entryOtherEx : ScanEntry := ⟨"weird.xyz", some 4, some "zz"⟩

/-- A `.js` scan entry. -/
def entryJsEx : ScanEntry := ⟨"b.js", some 1, some "y"⟩

/-- A `.js` tree blob. -/
def blobJsEx : TreeBlob := ⟨"b.js", "blob", some 1⟩

/-! ### The claim theorems -/

/-- Unfolding the penalty `foldl` into a sum. -/
theorem foldl_sevPenalty_eq_sum (l : List Issue) (a : Int) :
    l.foldl (fun p i => p + sevPenalty i.data.severity) a =
      a + (l.map fun i => sevPenalty i.data.severity).sum := by
  induction l generalizing a with
  | nil => simp
  | cons x xs ih => simp [ih, add_assoc]

/-- The source's bucket is the filter by category. -/
theorem bucketOf_eq_filter (issues : List Issue) (t : IType) :
    bucketOf issues t = issues.filter fun i => i.data.itype = t := rfl

/-- The source's per-category `calc` agrees with the specification's
score formula. -/
theorem calcScore_eq_spec (issues : List Issue) (t : IType) (ceiling : Int) :
    calcScore (bucketOf issues t) ceiling = specCategoryScore issues t ceiling := by
  rw [calcScore, penaltyOf, foldl_sevPenalty_eq_sum, bucketOf_eq_filter,
    specCategoryScore, specCategoryPenalty]
  norm_num
  rfl

/-- C1 (amended).  `calculateScores` gives, for each category, the score
`max(0, 100 − min(penalty, ceiling))` where the penalty sums 15 per
critical, 5 per warning and 1 per info issue of that category, with
ceilings 60/40/40/30; the overall score is `Math.round` of the
float64-evaluated weighted sum
`security·0.35 + performance·0.25 + quality·0.25 + cleanliness·0.15`
of those category scores — which can differ by one from rounding the
exact sum at floating-point ties; and the result depends only on the
issue multiset (it is invariant under permutation of the issue list). -/
theorem C1_amended_calculateScores_float :
    (∀ issues : List Issue,
      calculateScores issues =
        { security := specCategoryScore issues .security 60
          performance := specCategoryScore issues .performance 40
          quality := specCategoryScore issues .quality 40
          cleanliness := specCategoryScore issues .unused 30
          overall := jsOverall
            (specCategoryScore issues .security 60)
            (specCategoryScore issues .performance 40)
            (specCategoryScore issues .quality 40)
            (specCategoryScore issues .unused 30) }) ∧
    (∀ l₁ l₂ : List Issue, l₁.Perm l₂ → calculateScores l₁ = calculateScores l₂) := by
  have hform : ∀ issues : List Issue,
      calculateScores issues =
        { security := specCategoryScore issues .security 60
          performance := specCategoryScore issues .performance 40
          quality := specCategoryScore issues .quality 40
          cleanliness := specCategoryScore issues .unused 30
          overall := jsOverall
            (specCategoryScore issues .security 60)
            (specCategoryScore issues .performance 40)
            (specCategoryScore issues .quality 40)
            (specCategoryScore issues .unused 30) } := by
    intro issues
    rw [calculateScores]
    simp only [calcScore_eq_spec]
  refine ⟨hform, fun l₁ l₂ h => ?_⟩
  have hpen : ∀ t : IType, specCategoryPenalty l₁ t = specCategoryPenalty l₂ t := by
    intro t
    exact List.Perm.sum_eq ((h.filter _).map _)
  have hsc : ∀ t c, specCategoryScore l₁ t c = specCategoryScore l₂ t c := by
    intro t c
    rw [specCategoryScore, specCategoryScore, hpen]
  rw [hform l₁, hform l₂]
  simp [hsc]

/-- Counterexample to C1 as stated: at `tieIssues` the category scores
are (46, 60, 60, 76); the engine's float64 sum evaluates to
57.49999999999999, so `Math.round` returns 57, while the claimed exact
formula `round(57.5)` gives 58. -/
theorem C1_counterexample :
    (calculateScores tieIssues).security = 46 ∧
    (calculateScores tieIssues).performance = 60 ∧
    (calculateScores tieIssues).quality = 60 ∧
    (calculateScores tieIssues).cleanliness = 76 ∧
    (calculateScores tieIssues).overall = 57 ∧
    jsRound ((46 : ℚ) * (35 / 100) + (60 : ℚ) * (25 / 100) +
      (60 : ℚ) * (25 / 100) + (76 : ℚ) * (15 / 100)) = 58 := by
  with_unfolding_all decide

/-- Witness for the amended C1: permutation invariance at a concrete
issue pair. -/
theorem C1_amended_calculateScores_float_witness :
    calculateScores [issueEx1, issueEx2] = calculateScores [issueEx2, issueEx1] :=
  C1_amended_calculateScores_float.2 [issueEx1, issueEx2] [issueEx2, issueEx1]
    (by decide)

/-- `addIssue`'s duplicate test decides exactly key equality. -/
theorem addIssue_guard_iff (issues : List Issue) (c : Candidate) :
    (issues.any fun i =>
      i.data.file == c.file && i.data.line == c.line && i.data.title == c.title) =
        true ↔
      ∃ i ∈ issues, issueKey i.data = issueKey c := by
  simp [List.any_eq_true, issueKey, Prod.ext_iff, and_assoc]

/-- `addIssue` preserves the two invariants. -/
theorem addIssue_invariant (issues : List Issue) (c : Candidate)
    (h1 : keysDistinct issues) (h2 : idsSequential issues) :
    keysDistinct (addIssue issues c) ∧ idsSequential (addIssue issues c) := by
  rw [addIssue]
  split
  · exact ⟨h1, h2⟩
  · next hguard =>
    have hnew : ∀ i ∈ issues, issueKey i.data ≠ issueKey c := by
      intro i hi
      intro hk
      exact hguard ((addIssue_guard_iff issues c).2 ⟨i, hi, hk⟩)
    constructor
    · rw [keysDistinct, List.pairwise_append]
      refine ⟨h1, List.pairwise_singleton _ _, ?_⟩
      intro a ha b hb
      simp only [List.mem_singleton] at hb
      subst hb
      exact hnew a ha
    · rw [idsSequential] at h2 ⊢
      simp only [List.map_append, List.length_append, List.map_cons, List.map_nil,
        List.length_cons, List.length_nil]
      rw [h2]
      have hrc : List.range' 1 (issues.length + 1) =
          List.range' 1 issues.length ++ [1 + 1 * issues.length] :=
        List.range'_concat 1 issues.length
      simpa [Nat.add_comm] using hrc.symm

/-- Folding candidates through `addIssue` preserves the invariants. -/
theorem foldl_addIssue_invariant (cs : List Candidate) (issues : List Issue)
    (h1 : keysDistinct issues) (h2 : idsSequential issues) :
    keysDistinct (cs.foldl addIssue issues) ∧
      idsSequential (cs.foldl addIssue issues) := by
  induction cs generalizing issues with
  | nil => exact ⟨h1, h2⟩
  | cons c cs ih =>
    have h := addIssue_invariant issues c h1 h2
    exact ih (addIssue issues c) h.1 h.2

/-- `analyzeFile` mutates the issue list only by folding its candidates
through `addIssue`. -/
theorem analyzeFile_issues (s : EngineState) (p c : String) :
    (analyzeFile s p c).1.issues = (fileCands p c).foldl addIssue s.issues := by
  simp only [analyzeFile, fileCands]

/-- `generateReport` leaves the issue list unchanged. -/
theorem generateReport_issues (s : EngineState) (label t : String) :
    (generateReport s label t).2.issues = s.issues := rfl

/-- C2.  In every reachable engine state no two issues share a
`(file, line, title)` key and the ids are sequential from 1; and each
`addIssue` call leaves the list unchanged exactly when the key is
already present, else appends one issue with the next sequential id. -/
theorem C2_issue_uniqueness :
    (∀ s : EngineState, Reachable s →
      keysDistinct s.issues ∧ idsSequential s.issues) ∧
    (∀ (issues : List Issue) (c : Candidate),
      ((∃ i ∈ issues, issueKey i.data = issueKey c) → addIssue issues c = issues) ∧
      ((∀ i ∈ issues, issueKey i.data ≠ issueKey c) →
        addIssue issues c = issues ++ [⟨issues.length + 1, c⟩])) := by
  constructor
  · intro s h
    induction h with
    | start => exact ⟨List.Pairwise.nil, rfl⟩
    | reset s _ _ => exact ⟨List.Pairwise.nil, rfl⟩
    | analyze s p c _ ih =>
      rw [analyzeFile_issues]
      exact foldl_addIssue_invariant _ _ ih.1 ih.2
    | report s label t _ ih =>
      rw [generateReport_issues]
      exact ih
  · intro issues c
    constructor
    · intro h
      rw [addIssue, if_pos ((addIssue_guard_iff issues c).2 h)]
    · intro h
      rw [addIssue, if_neg]
      intro hg
      obtain ⟨i, hi, hk⟩ := (addIssue_guard_iff issues c).1 hg
      exact h i hi hk

/-- Witness for C2: the invariant at the reset state, and a concrete
`addIssue` append. -/
theorem C2_issue_uniqueness_witness :
    (keysDistinct resetState.issues ∧ idsSequential resetState.issues) ∧
    addIssue [] candEx = [⟨1, candEx⟩] := by
  refine ⟨C2_issue_uniqueness.1 resetState Reachable.start, ?_⟩
  have h := (C2_issue_uniqueness.2 [] candEx).2 (by simp)
  simpa using h

/-- Counterexample to C3: an issue list whose per-category penalties all
exceed the ceilings (75, 45, 45, 45), yet no score is 0 — the formula
`max(0, 100 − min(penalty, ceiling))` floors each category at
`100 − ceiling`. -/
theorem C3_counterexample :
    60 < penaltyOf (bucketOf overCeilingIssues .security) ∧
    40 < penaltyOf (bucketOf overCeilingIssues .performance) ∧
    40 < penaltyOf (bucketOf overCeilingIssues .quality) ∧
    30 < penaltyOf (bucketOf overCeilingIssues .unused) ∧
    calculateScores overCeilingIssues ≠ ⟨0, 0, 0, 0, 0⟩ := by
  decide

/-- C3 (amended).  When every category's penalty exceeds its ceiling the
scores are the floors `100 − ceiling`: security 40, performance 60,
quality 60, cleanliness 70, and overall `round(54.5) = 55` — not 0. -/
theorem C3_amended_floor_scores (issues : List Issue)
    (hs : 60 < penaltyOf (bucketOf issues .security))
    (hp : 40 < penaltyOf (bucketOf issues .performance))
    (hq : 40 < penaltyOf (bucketOf issues .quality))
    (hc : 30 < penaltyOf (bucketOf issues .unused)) :
    calculateScores issues = ⟨40, 60, 60, 70, 55⟩ := by
  have h1 : calcScore (bucketOf issues .security) 60 = 40 := by
    rw [calcScore]; omega
  have h2 : calcScore (bucketOf issues .performance) 40 = 60 := by
    rw [calcScore]; omega
  have h3 : calcScore (bucketOf issues .quality) 40 = 60 := by
    rw [calcScore]; omega
  have h4 : calcScore (bucketOf issues .unused) 30 = 70 := by
    rw [calcScore]; omega
  rw [calculateScores]
  simp only [h1, h2, h3, h4]
  with_unfolding_all decide

/-- Witness for the amended C3 at the concrete over-ceiling list. -/
theorem C3_amended_floor_scores_witness :
    calculateScores overCeilingIssues = ⟨40, 60, 60, 70, 55⟩ :=
  C3_amended_floor_scores overCeilingIssues (by decide) (by decide) (by decide)
    (by decide)

/-- Counterexample to C8 as stated: the report carries the wall-clock
timestamp, so a second call (here one second later) returns a different
`Report` even though nothing else changed. -/
theorem C8_counterexample :
    ((generateReport
        ((generateReport resetState "repo" "2024-01-01T00:00:00.000Z").2)
        "repo" "2024-01-01T00:00:01.000Z").1) ≠
      (generateReport resetState "repo" "2024-01-01T00:00:00.000Z").1 := by
  decide

/-- C8 (amended).  Without an intervening `analyzeFile`, a second
`generateReport` with the same label returns the same `Report` except
for the `timestamp` field (which carries the new clock reading), and
both calls leave the engine's issues, files and statistics unchanged. -/
theorem C8_amended_idempotent_mod_timestamp (s : EngineState)
    (label t₁ t₂ : String) :
    (generateReport (generateReport s label t₁).2 label t₂).1 =
      { (generateReport s label t₁).1 with timestamp := t₂ } ∧
    (generateReport (generateReport s label t₁).2 label t₂).2.issues = s.issues ∧
    (generateReport (generateReport s label t₁).2 label t₂).2.files = s.files ∧
    (generateReport (generateReport s label t₁).2 label t₂).2.statistics =
      s.statistics ∧
    (generateReport s label t₁).2.issues = s.issues ∧
    (generateReport s label t₁).2.files = s.files ∧
    (generateReport s label t₁).2.statistics = s.statistics := by
  refine ⟨?_, rfl, rfl, rfl, rfl, rfl, rfl⟩
  rfl

/-- C10.  For `1 ≤ L ≤ n`, `_ctx` returns exactly the clamped window of
the specification: consecutive numbers `max(1, L−k) .. min(n, L+k)`,
each entry's text the line at its number, and exactly one entry — the
one numbered `L` — highlighted. -/
theorem C10_ctx_window (lines : List String) (L k : Nat)
    (h1 : 1 ≤ L) (h2 : L ≤ lines.length) :
    ctxWindow lines L k = specCtxWindow lines L k ∧
    (ctxWindow lines L k).countP (·.highlight) = 1 := by
  have hmaster : ctxWindow lines L k = specCtxWindow lines L k := by
    rw [ctxWindow, specCtxWindow]
    have hstart : L - (k + 1) + 1 = max 1 (L - k) := by omega
    have hstop : min lines.length (L + k) ≤ lines.length := Nat.min_le_left _ _
    have hlen : ((lines.drop (L - (k + 1))).take
        (min lines.length (L + k) - (L - (k + 1)))).length =
        min lines.length (L + k) - (L - (k + 1)) := by
      simp only [List.length_take, List.length_drop]
      omega
    apply List.ext_getElem
    · simp only [List.length_map, List.enum_length, List.length_range', hlen]
      omega
    · intro i hi1 hi2
      simp only [List.length_map, List.enum_length, hlen] at hi1
      simp only [List.getElem_map, List.getElem_enum, List.getElem_range', one_mul]
      have hib : L - (k + 1) + i < lines.length := by omega
      have htake : ((lines.drop (L - (k + 1))).take
          (min lines.length (L + k) - (L - (k + 1))))[i] =
          lines[L - (k + 1) + i] := by
        rw [List.getElem_take, List.getElem_drop]
      rw [htake]
      have hnum : L - (k + 1) + i + 1 = max 1 (L - k) + i := by omega
      have hgetD : lines.getD (max 1 (L - k) + i - 1) "" =
          lines[L - (k + 1) + i] := by
        rw [List.getD_eq_getElem lines "" (by omega : max 1 (L - k) + i - 1 < lines.length)]
        congr 1
        omega
      simp only [CtxLine.mk.injEq]
      exact ⟨hnum, hgetD.symm, by rw [hnum]⟩
  refine ⟨hmaster, ?_⟩
  rw [hmaster, specCtxWindow, List.countP_map]
  have hcnt : (List.range' (max 1 (L - k))
      (min lines.length (L + k) + 1 - max 1 (L - k))).countP (fun j => j == L) =
      (List.range' (max 1 (L - k))
        (min lines.length (L + k) + 1 - max 1 (L - k))).count L := by
    rw [List.count]
  have hmem : L ∈ List.range' (max 1 (L - k))
      (min lines.length (L + k) + 1 - max 1 (L - k)) := by
    rw [List.mem_range'_1]
    omega
  have hone := List.count_eq_one_of_mem (List.nodup_range' _ _) hmem
  simpa [Function.comp] using hone

/-- Witness for C10 at a concrete three-line file, `L = 2`, `k = 1`. -/
theorem C10_ctx_window_witness :
    ctxWindow ["a", "b", "c"] 2 1 = specCtxWindow ["a", "b", "c"] 2 1 ∧
    (ctxWindow ["a", "b", "c"] 2 1).countP (·.highlight) = 1 :=
  C10_ctx_window ["a", "b", "c"] 2 1 (by decide) (by decide)

/-- C5.  Two engine instances in arbitrary prior states, once reset, run
through the same `(path, content)` sequence end in identical states, and
`generateReport` then yields identical reports (given the same label and
the same clock reading — the `timestamp` field is the clock's copy and
is excluded by the claim): the engine keeps no state that survives
`reset`, so fresh runs are deterministic. -/
theorem C5_fresh_run_determinism (inputs : List (String × String))
    (s₁ s₂ : EngineState) (label t : String) :
    runProtocol s₁ inputs = runProtocol s₂ inputs ∧
    (generateReport (runProtocol s₁ inputs) label t).1 =
      (generateReport (runProtocol s₂ inputs) label t).1 := by
  constructor <;> rfl

/-- Counterexample to C6: the magic-number pattern matches 11 times (all
11 eligible under the rule's own line guards), but `_detectMagicNumbers`
emits only 10 candidates — its loop is capped at 10 per file. -/
theorem C6_counterexample :
    (rxExecAll magicNumberPat magicElevenContent).length = 11 ∧
    (detectMagicNumbers "a.js" magicElevenContent
      (splitOnChar '\n' magicElevenContent)).length = 10 := by
  decide

/-- `magicLoop` emits at most `10 − count` candidates. -/
theorem magicLoop_length_le (path content : String) (lines : List String)
    (ms : List MatchRes) (count : Nat) :
    (magicLoop path content lines ms count).length ≤ 10 - count := by
  induction ms generalizing count with
  | nil => simp [magicLoop]
  | cons m ms ih =>
    simp only [magicLoop]
    split
    · simp
    · next hc =>
      split
      · exact ih count
      · split
        · exact ih count
        · have h := ih (count + 1)
          simp only [List.length_cons]
          omega

/-- `commentedLoop` emits at most `5 − count` candidates. -/
theorem commentedLoop_length_le (path : String) (lines : List String)
    (lang : LangInfo) (i : Nat) (rest : List String) (count : Nat) :
    (commentedLoop path lines lang i rest count).length ≤ 5 - count := by
  induction rest generalizing i count with
  | nil => simp [commentedLoop]
  | cons l rest ih =>
    simp only [commentedLoop]
    split
    · simp
    · next hc =>
      split
      · split
        · have h := ih (i + 1) (count + 1)
          simp only [List.length_cons]
          omega
        · exact ih (i + 1) count
      · exact ih (i + 1) count

/-- `deepNestingLoop` emits at most one candidate. -/
theorem deepNestingLoop_length_le (path : String) (lines : List String)
    (i : Nat) (rest : List String) (depth : Int) :
    (deepNestingLoop path lines i rest depth).length ≤ 1 := by
  induction rest generalizing i depth with
  | nil => simp [deepNestingLoop]
  | cons l rest ih =>
    simp only [deepNestingLoop]
    split
    · simp
    · exact ih (i + 1) _

/-- `dupLoop` emits at most one candidate. -/
theorem dupLoop_length_le (path : String) (lines : List String)
    (fuel i : Nat) (seen : List (String × Nat)) :
    (dupLoop path lines fuel i seen).length ≤ 1 := by
  induction fuel generalizing i seen with
  | zero => simp [dupLoop]
  | succ f ih =>
    simp only [dupLoop]
    split
    · simp
    · split
      · exact ih (i + 1) seen
      · split
        · simp
        · exact ih (i + 1) _

/-- C6 (amended).  Pattern rules run through `_matchPattern` /
`_matchAll` emit one candidate per match (minus only the
self-pattern-guard filter); but magic-number detection is capped at 10
candidates per file and commented-out-code detection at 5, while deep
nesting and duplicate-block detection are single-shot (at most one
candidate per file). -/
theorem C6_amended_match_multiplicity :
    (∀ (path content : String) (lines : List String) (r : JsRegex)
      (t : IType) (sev : Severity) (title descr : String) (sugg : Option String),
      (matchPatternCands path content lines r t sev title descr sugg).length =
        ((rxExecAll r content).filter fun m =>
          !(isInsidePattern (lines.getD (lineAt content m.start - 1) ""))).length) ∧
    (∀ (path content : String) (lines : List String)
      (pats : List (JsRegex × String)) (t : IType) (sev : Severity)
      (titleFn descFn : String → String) (sugg : String),
      (matchAllCands path content lines pats t sev titleFn descFn sugg).length =
        (pats.map fun pr => (rxExecAll pr.1 content).length).sum) ∧
    (∀ (path content : String) (lines : List String),
      (detectMagicNumbers path content lines).length ≤ 10) ∧
    (∀ (path : String) (lines : List String) (lang : LangInfo),
      (detectCommentedCode path lines lang).length ≤ 5) ∧
    (∀ (path : String) (lines : List String),
      (detectDeepNesting path lines).length ≤ 1) ∧
    (∀ (path : String) (lines : List String),
      (duplicateLineCands path lines).length ≤ 1) := by
  refine ⟨?_, ?_, ?_, ?_, ?_, ?_⟩
  · intro path content lines r t sev title descr sugg
    rw [matchPatternCands, List.length_map]
  · intro path content lines pats t sev titleFn descFn sugg
    simp [matchAllCands, List.length_flatMap, Function.comp_def]
  · intro path content lines
    have h := magicLoop_length_le path content lines
      (rxExecAll magicNumberPat content) 0
    simpa [detectMagicNumbers] using h
  · intro path lines lang
    have h := commentedLoop_length_le path lines lang 0 lines 0
    simpa [detectCommentedCode] using h
  · intro path lines
    exact deepNestingLoop_length_le path lines 0 lines 0
  · intro path lines
    rw [duplicateLineCands]
    split
    · simp
    · exact dupLoop_length_le path lines _ 0 []

/-- Counterexample to C7: `analyzeFile` propagates an exception on a
plain-text input — the unused-import helper builds an invalid dynamic
regular expression from the captured import name. -/
theorem C7_counterexample :
    (analyzeFile resetState "a.js" badImportContent).2 = some regexErrorMsg := by
  decide

/-- `seqCands` preserves `throwsOnlyRegexError`. -/
theorem seqCands_err (a : List Candidate × Option String)
    (b : Unit → List Candidate × Option String)
    (ha : throwsOnlyRegexError a) (hb : throwsOnlyRegexError (b ())) :
    throwsOnlyRegexError (seqCands a b) := by
  obtain ⟨cs, e⟩ := a
  cases e with
  | none => simpa [seqCands, throwsOnlyRegexError] using hb
  | some e' =>
    rcases ha with h | h <;> simp_all [seqCands, throwsOnlyRegexError]

/-- `unusedVarsLoop` errors only with the regex error. -/
theorem unusedVarsLoop_err (path content : String) (lines : List String) :
    ∀ l, throwsOnlyRegexError (unusedVarsLoop path content lines l) := by
  intro l
  induction l with
  | nil => exact Or.inl rfl
  | cons x rest ih =>
    obtain ⟨name, line⟩ := x
    rw [unusedVarsLoop]
    split
    · exact Or.inr rfl
    · simpa [throwsOnlyRegexError] using ih

/-- `unusedImportsJsNames` errors only with the regex error. -/
theorem unusedImportsJsNames_err (path content : String) (lines : List String)
    (ln : Nat) : ∀ l, throwsOnlyRegexError (unusedImportsJsNames path content lines ln l) := by
  intro l
  induction l with
  | nil => exact Or.inl rfl
  | cons name rest ih =>
    rw [unusedImportsJsNames]
    split
    · exact ih
    · split
      · exact Or.inr rfl
      · simpa [throwsOnlyRegexError] using ih

/-- `unusedImportsJsLoop` errors only with the regex error. -/
theorem unusedImportsJsLoop_err (path content : String) (lines : List String) :
    ∀ l, throwsOnlyRegexError (unusedImportsJsLoop path content lines l) := by
  intro l
  induction l with
  | nil => exact Or.inl rfl
  | cons m ms ih =>
    rw [unusedImportsJsLoop]
    have h := unusedImportsJsNames_err path content lines (lineAt content m.start)
      (importNamesOf content.data m)
    split
    · next heq => exact Or.inr (by
        rcases h with h | h
        · simp_all
        · simp_all)
    · simpa [throwsOnlyRegexError] using ih

/-- `unusedImportsPyNames` errors only with the regex error. -/
theorem unusedImportsPyNames_err (path content : String) (lines : List String)
    (ln : Nat) : ∀ l, throwsOnlyRegexError (unusedImportsPyNames path content lines ln l) := by
  intro l
  induction l with
  | nil => exact Or.inl rfl
  | cons name rest ih =>
    rw [unusedImportsPyNames]
    split
    · exact ih
    · split
      · exact Or.inr rfl
      · simpa [throwsOnlyRegexError] using ih

/-- `unusedImportsPyLoop` errors only with the regex error. -/
theorem unusedImportsPyLoop_err (path content : String) (lines : List String) :
    ∀ l, throwsOnlyRegexError (unusedImportsPyLoop path content lines l) := by
  intro l
  induction l with
  | nil => exact Or.inl rfl
  | cons m ms ih =>
    rw [unusedImportsPyLoop]
    have h := unusedImportsPyNames_err path content lines (lineAt content m.start)
      ((splitOnChar ',' ((capStr content.data m 1).getD "")).map lastAsPart)
    split
    · next heq => exact Or.inr (by rcases h with h | h <;> simp_all)
    · simpa [throwsOnlyRegexError] using ih

/-- `unusedImportsJavaLoop` errors only with the regex error. -/
theorem unusedImportsJavaLoop_err (path content : String) (lines : List String) :
    ∀ l, throwsOnlyRegexError (unusedImportsJavaLoop path content lines l) := by
  intro l
  induction l with
  | nil => exact Or.inl rfl
  | cons m ms ih =>
    rw [unusedImportsJavaLoop]
    split
    · exact ih
    · split
      · exact Or.inr rfl
      · simpa [throwsOnlyRegexError] using ih

/-- `unusedImportsGoLines` errors only with the regex error. -/
theorem unusedImportsGoLines_err (path content : String) (lines : List String)
    (ln : Nat) : ∀ l, throwsOnlyRegexError (unusedImportsGoLines path content lines ln l) := by
  intro l
  induction l with
  | nil => exact Or.inl rfl
  | cons il rest ih =>
    simp only [unusedImportsGoLines]
    split
    · exact ih
    · split
      · exact ih
      · split
        · exact Or.inr rfl
        · simpa [throwsOnlyRegexError] using ih

/-- `unusedImportsGoLoop` errors only with the regex error. -/
theorem unusedImportsGoLoop_err (path content : String) (lines : List String) :
    ∀ l, throwsOnlyRegexError (unusedImportsGoLoop path content lines l) := by
  intro l
  induction l with
  | nil => exact Or.inl rfl
  | cons m ms ih =>
    rw [unusedImportsGoLoop]
    have h := unusedImportsGoLines_err path content lines (lineAt content m.start)
      (splitOnChar '\n' ((capStr content.data m 1).getD ""))
    split
    · next heq => exact Or.inr (by rcases h with h | h <;> simp_all)
    · simpa [throwsOnlyRegexError] using ih

/-- `unusedImportsRustLoop` errors only with the regex error. -/
theorem unusedImportsRustLoop_err (path content : String) (lines : List String) :
    ∀ l, throwsOnlyRegexError (unusedImportsRustLoop path content lines l) := by
  intro l
  induction l with
  | nil => exact Or.inl rfl
  | cons m ms ih =>
    rw [unusedImportsRustLoop]
    split
    · exact ih
    · split
      · exact Or.inr rfl
      · simpa [throwsOnlyRegexError] using ih

/-- `unusedUsingsCSharpLoop` errors only with the regex error. -/
theorem unusedUsingsCSharpLoop_err (path content : String) (lines : List String) :
    ∀ l, throwsOnlyRegexError (unusedUsingsCSharpLoop path content lines l) := by
  intro l
  induction l with
  | nil => exact Or.inl rfl
  | cons m ms ih =>
    rw [unusedUsingsCSharpLoop]
    split
    · exact Or.inr rfl
    · simpa [throwsOnlyRegexError] using ih

/-- A branch helper: an always-clean producer. -/
theorem throwsOnlyRegexError_pure (cs : List Candidate) :
    throwsOnlyRegexError (cs, none) := Or.inl rfl

/-- `runUnusedCodeAnalysis` errors only with the regex error. -/
theorem unusedCands_err (path content : String) (lines : List String)
    (lang : LangInfo) :
    throwsOnlyRegexError (unusedCands path content lines lang) := by
  rw [unusedCands]
  refine seqCands_err _ _ ?_ (seqCands_err _ _ ?_ (seqCands_err _ _ ?_
    (seqCands_err _ _ ?_ (seqCands_err _ _ ?_ (seqCands_err _ _ ?_
      (seqCands_err _ _ ?_ (throwsOnlyRegexError_pure _)))))))
  · split
    · exact unusedVarsLoop_err path content lines _
    · exact Or.inl rfl
  · split
    · exact unusedImportsJsLoop_err path content lines _
    · exact Or.inl rfl
  · split
    · exact unusedImportsPyLoop_err path content lines _
    · exact Or.inl rfl
  · split
    · exact unusedImportsJavaLoop_err path content lines _
    · exact Or.inl rfl
  · split
    · exact unusedImportsGoLoop_err path content lines _
    · exact Or.inl rfl
  · split
    · exact unusedImportsRustLoop_err path content lines _
    · exact Or.inl rfl
  · split
    · exact unusedUsingsCSharpLoop_err path content lines _
    · exact Or.inl rfl

/-- C7 (amended).  `analyzeFile` either returns normally or propagates
precisely a `SyntaxError` from an invalid dynamically built
word-boundary pattern (a `\b<name>\b` regex assembled from text captured
out of the file); no other analysis failure reaches the caller. -/
theorem C7_amended_only_regex_errors (s : EngineState) (p c : String) :
    (analyzeFile s p c).2 = none ∨
      (analyzeFile s p c).2 = some regexErrorMsg := by
  have h : (analyzeFile s p c).2 =
      (unusedCands p c (splitOnChar '\n' c) (getLanguage p)).2 := rfl
  rw [h]
  exact unusedCands_err p c (splitOnChar '\n' c) (getLanguage p)

/-- Counterexample to C9: on the specification's exact content the
engine emits no critical issue at all — the secret has 46 characters
after `sk-` while the pattern requires exactly 48. -/
theorem C9_counterexample :
    ((analyzeFile resetState "a.js" scenarioAContent).1.issues.filter fun i =>
      i.data.severity == Severity.critical) = [] := by
  decide

/-- C9 (amended).  With 48 alphanumeric characters after `sk-` the file
produces exactly one critical issue, titled "Exposed OpenAI API Key",
at line 1. -/
theorem C9_amended_scenarioA :
    (((analyzeFile resetState "a.js" scenarioA48Content).1.issues.filter fun i =>
      i.data.severity == Severity.critical).map fun i =>
        (i.data.title, i.data.line)) = [("Exposed OpenAI API Key", 1)] := by
  decide

/-- Every table descriptor has a family other than `"other"` and a name
other than `"Other"`. -/
theorem tables_not_other :
    ((filenameLanguagesTable ++ languagesTable).all fun kv =>
      !(kv.2.family == "other") && !(kv.2.name == "Other")) = true := by
  decide

/-- `getLanguage` returns a table descriptor or the fallback. -/
theorem getLanguage_mem_or_fallback (p : String) :
    (∃ kv ∈ filenameLanguagesTable ++ languagesTable, getLanguage p = kv.2) ∨
      getLanguage p = otherLang := by
  simp only [getLanguage]
  split
  · next kv heq =>
    exact Or.inl ⟨kv, List.mem_append_left _ (List.mem_of_find?_eq_some heq), rfl⟩
  · by_cases hinc : jsIncludes (basenameOf p) "." = true
    · have hne : ("." ++ ".".intercalate (List.drop 1 (splitOnChar '.' (basenameOf p)))) ≠ "" := by
        intro h
        have hlen := congrArg String.length h
        simp [String.length_append] at hlen
        exact absurd hlen.1 (by decide)
      simp only [if_pos hinc, if_pos hne]
      split
      · next kv heq =>
        exact Or.inl ⟨kv, List.mem_append_right _ (List.mem_of_find?_eq_some heq), rfl⟩
      · split
        · next kv heq =>
          exact Or.inl ⟨kv, List.mem_append_right _ (List.mem_of_find?_eq_some heq), rfl⟩
        · exact Or.inr rfl
    · simp only [if_neg hinc, ne_eq, not_true_eq_false, if_false]
      split
      · next kv heq =>
        exact Or.inl ⟨kv, List.mem_append_right _ (List.mem_of_find?_eq_some heq), rfl⟩
      · exact Or.inr rfl

/-- A path not classified to family `"other"` is never named `"Other"`. -/
theorem getLanguage_nonother_name (p : String)
    (h : (getLanguage p).family ≠ "other") : (getLanguage p).name ≠ "Other" := by
  rcases getLanguage_mem_or_fallback p with ⟨kv, hmem, heq⟩ | heq
  · have hx := List.all_eq_true.1 tables_not_other kv hmem
    simp only [Bool.and_eq_true, Bool.not_eq_true', beq_eq_false_iff_ne, ne_eq] at hx
    rw [heq]
    exact hx.2
  · rw [heq] at h
    exact absurd rfl h

/-- Scan survivors are never of family `"other"`. -/
theorem localScan_not_other (entries : List ScanEntry) :
    ∀ e ∈ localScan entries, (getLanguage e.relPath).family ≠ "other" := by
  intro e he
  have h := (List.mem_filter.1 he).2
  rw [scanAccepts] at h
  simp only [Bool.and_eq_true, Bool.not_eq_true', beq_eq_false_iff_ne, ne_eq] at h
  exact h.1.2

/-- Remote-filter survivors are never of family `"other"`. -/
theorem remoteBlobFilter_not_other (items : List TreeBlob) :
    ∀ b ∈ remoteBlobFilter items, (getLanguage b.path).family ≠ "other" := by
  intro b hb
  have h := (List.mem_filter.1 hb).2
  simp only [Bool.and_eq_true, Bool.not_eq_true', beq_eq_false_iff_ne, ne_eq] at h
  exact h.1.2

/-- Keys after `bumpLang` come from the old keys or are the new name. -/
theorem bumpLang_keys (langs : List (String × Nat)) (n : String) :
    ∀ kv ∈ bumpLang langs n, kv.1 = n ∨ ∃ kv' ∈ langs, kv.1 = kv'.1 := by
  induction langs with
  | nil =>
    intro kv h
    simp only [bumpLang, List.mem_singleton] at h
    subst h
    exact Or.inl rfl
  | cons x rest ih =>
    intro kv h
    obtain ⟨k, v⟩ := x
    rw [bumpLang] at h
    split at h
    · rcases List.mem_cons.1 h with h | h
      · subst h
        exact Or.inr ⟨(k, v), List.mem_cons_self _ _, rfl⟩
      · exact Or.inr ⟨kv, List.mem_cons_of_mem _ h, rfl⟩
    · rcases List.mem_cons.1 h with h | h
      · subst h
        exact Or.inr ⟨(k, v), List.mem_cons_self _ _, rfl⟩
      · rcases ih kv h with h' | ⟨kv', hmem, hk⟩
        · exact Or.inl h'
        · exact Or.inr ⟨kv', List.mem_cons_of_mem _ hmem, hk⟩

/-- `analyzeFile` on a non-`"other"` path preserves the invariant. -/
theorem analyzeFile_noOtherInv (st : EngineState) (p c : String)
    (hfam : (getLanguage p).family ≠ "other") (h : noOtherInv st) :
    noOtherInv (analyzeFile st p c).1 := by
  obtain ⟨hf, ha, hl⟩ := h
  refine ⟨?_, ?_, ?_⟩
  · intro r hr
    simp only [analyzeFile, List.mem_append, List.mem_singleton] at hr
    rcases hr with hr | hr
    · exact hf r hr
    · subst hr
      exact ⟨hfam, getLanguage_nonother_name p hfam⟩
  · simp only [analyzeFile, List.length_append, List.length_singleton]
    omega
  · intro kv hkv
    simp only [analyzeFile] at hkv
    rcases bumpLang_keys _ _ kv hkv with hk | ⟨kv', hmem, hk⟩
    · rw [hk]
      exact getLanguage_nonother_name p hfam
    · rw [hk]
      exact hl kv' hmem

/-- Folding the analysis step over non-`"other"` entries preserves the
invariant. -/
theorem foldAnalyze_noOtherInv (l : List ScanEntry) (st : EngineState)
    (hl : ∀ e ∈ l, (getLanguage e.relPath).family ≠ "other")
    (h : noOtherInv st) :
    noOtherInv (l.foldl
      (fun st e =>
        match e.content? with
        | none => st
        | some c => (analyzeFile st e.relPath c).1) st) := by
  induction l generalizing st with
  | nil => exact h
  | cons e rest ih =>
    refine ih _ (fun e' he' => hl e' (List.mem_cons_of_mem _ he')) ?_
    match hc : e.content? with
    | none => simpa [hc] using h
    | some c =>
      simp only [hc]
      exact analyzeFile_noOtherInv st e.relPath c (hl e (List.mem_cons_self _ _)) h

/-- C4.  A path classified to the fallback family `"other"` is filtered
out by both drivers (local scan and remote blob filter) before the
engine sees it; consequently a local run creates no FileRecord of family
`"other"` or language `"Other"`, `analyzedFiles` counts exactly the
analyzed (non-`"other"`) records, and the language histogram never gets
an `"Other"` entry. -/
theorem C4_other_never_analyzed :
    (∀ (entries : List ScanEntry), ∀ e ∈ localScan entries,
      (getLanguage e.relPath).family ≠ "other") ∧
    (∀ (items : List TreeBlob), ∀ b ∈ remoteBlobFilter items,
      (getLanguage b.path).family ≠ "other") ∧
    (∀ entries : List ScanEntry,
      (∀ r ∈ (runLocalEngine entries).files,
        r.family ≠ "other" ∧ r.language ≠ "Other") ∧
      (runLocalEngine entries).statistics.analyzedFiles =
        (runLocalEngine entries).files.length ∧
      (∀ kv ∈ (runLocalEngine entries).statistics.languages, kv.1 ≠ "Other")) := by
  refine ⟨localScan_not_other, remoteBlobFilter_not_other, ?_⟩
  intro entries
  have h := foldAnalyze_noOtherInv (localScan entries)
    { resetState with
      statistics := { resetState.statistics with
        totalFiles := (localScan entries).length } }
    (localScan_not_other entries)
    ⟨by simp [resetState], by simp [resetState], by simp [resetState]⟩
  exact h

/-- Witness for C4 at concrete inputs: the `.js` survivor of a scan over
one unrecognized and one recognized file is not of family `"other"`,
likewise for the remote filter, and the run's single file record is the
JavaScript one. -/
theorem C4_other_never_analyzed_witness :
    (getLanguage entryJsEx.relPath).family ≠ "other" ∧
    (getLanguage blobJsEx.path).family ≠ "other" ∧
    ((⟨"b.js", "JavaScript", "js", 1, 1⟩ : FileRecord).family ≠ "other" ∧
      (⟨"b.js", "JavaScript", "js", 1, 1⟩ : FileRecord).language ≠ "Other") := by
  refine ⟨C4_other_never_analyzed.1 [entryOtherEx, entryJsEx] entryJsEx (by decide),
    C4_other_never_analyzed.2.1 [blobJsEx] blobJsEx (by decide),
    (C4_other_never_analyzed.2.2 [entryOtherEx, entryJsEx]).1
      ⟨"b.js", "JavaScript", "js", 1, 1⟩ (by decide)⟩

end GitAudit
